import Mathlib

/-!
url-shortener: resolution path, rate limiter and identifier generator.

A shallow embedding of

* `api/middleware/ratelimit.go`  (`RateLimitMiddleware`),
* `api/handlers/redirect.go`     (`RedirectURL`),
* `api/handlers/shorten.go`      (`generateShortID`, `ShortenURL`),
* `api/handlers/analytics.go`    (`GetAnalytics`),
* `api/handlers/urls.go`         (`UpdateURL`, `DeleteURL`),

together with the parts of their environment that decide their behaviour:
the Redis commands they issue (`GET`, `INCR`, `EXPIRE`, `SET`), the go-redis
client's formatting of durations, and Go's `strconv.Atoi`. The generated
queries of `queries/sqlc` and `uuid.Parse` are parameters of the handlers.

Conventions.

* Instants are natural numbers of nanoseconds; `time.Duration` is an integer
  number of nanoseconds, as in Go.
* A Redis client is a state: whether the server answers, and the key space.
  A key whose expiry instant has been reached is treated as absent (passive
  expiry).
* One request executes at one instant `now`: the commands a handler issues
  are run one after the other on the state, all at that instant.
* A handler's answer is the call it makes on the `http.ResponseWriter`:
  `http.Error(w, msg, code)` or `http.Redirect(w, r, url, code)`. The
  Location header that `http.Redirect` derives from its target is
  `redirectLocation`, with `url.Parse` as a parameter.
-/

namespace UrlShortener

/-! ## Time -/

/-- Go's `time.Duration`: a signed count of nanoseconds. -/
abbrev Duration := Int

def Millisecond : Duration := 1000000
def Second : Duration := 1000 * Millisecond
def Minute : Duration := 60 * Second
def Hour : Duration := 60 * Minute

/-! ## strconv -/

/-- The two kinds of `*strconv.NumError`. -/
inductive NumError where
  | syntaxError
  | rangeError
  deriving DecidableEq

def maxUint64 : Nat := 2 ^ 64 - 1

def isDigit (c : Char) : Bool := decide (48 ≤ c.toNat) && decide (c.toNat ≤ 57)

/-- The digit loop of `strconv.ParseUint(s, 10, 64)`: it stops at the first
byte that is not a digit (syntax error) and at the first overflow (range
error), whichever comes first. -/
def parseUintLoop : List Char → Nat → Except NumError Nat
  | [], n => .ok n
  | c :: cs, n =>
    if isDigit c then
      if n ≥ maxUint64 / 10 + 1 then .error .rangeError
      else
        let n1 := n * 10 + (c.toNat - 48)
        if n1 > maxUint64 then .error .rangeError else parseUintLoop cs n1
    else .error .syntaxError

/-- Go `strconv.ParseUint(s, 10, 64)`. -/
def ParseUint (s : List Char) : Except NumError Nat :=
  match s with
  | [] => .error .syntaxError
  | _ => parseUintLoop s 0

/-- Go `strconv.ParseInt(s, 10, 64)`: the value and the error. On a range
error the value is the nearest bound, on a syntax error it is 0. -/
def ParseInt (s : String) : Int × Option NumError :=
  match s.data with
  | [] => (0, some .syntaxError)
  | c :: cs =>
    let neg := decide (c = '-')
    let body := if c = '+' ∨ c = '-' then cs else c :: cs
    match ParseUint body with
    | .error .syntaxError => (0, some .syntaxError)
    | .error .rangeError => if neg then (-(2 ^ 63 : Int), some .rangeError) else (2 ^ 63 - 1, some .rangeError)
    | .ok un =>
      if !neg ∧ un ≥ 2 ^ 63 then (2 ^ 63 - 1, some .rangeError)
      else if neg ∧ un > 2 ^ 63 then (-(2 ^ 63 : Int), some .rangeError)
      else (if neg then -(un : Int) else (un : Int), none)

/-- Go `strconv.Atoi` on a 64-bit platform (its fast path for short strings
agrees with `ParseInt(s, 10, 0)`). -/
def Atoi (s : String) : Int × Option NumError := ParseInt s

def digitChar (d : Nat) : Char := Char.ofNat (48 + d)

/-- Decimal digits of `n`, most significant first, in front of `acc`. -/
def formatUintAux : Nat → Nat → List Char → List Char
  | 0, _, acc => acc
  | fuel + 1, n, acc =>
    if n < 10 then digitChar n :: acc
    else formatUintAux fuel (n / 10) (digitChar (n % 10) :: acc)

def FormatUint (n : Nat) : String := String.mk (formatUintAux (n + 1) n [])

/-- The canonical decimal text of an integer, as Redis stores the result of
`INCR` and as `strconv.Itoa` prints it. -/
def Itoa (i : Int) : String :=
  if i < 0 then String.mk ('-' :: (FormatUint (-i).toNat).data) else FormatUint i.toNat

/-- One step of reading a decimal number: the value so far and a digit. -/
def digitVal (acc : Nat) (c : Char) : Nat := acc * 10 + (c.toNat - 48)

/-! ## Redis -/

/-- One key of the key space: its string value and, when it has a
time-to-live, the instant at which it expires. -/
structure Entry where
  val : String
  expireAt : Option Nat
  deriving DecidableEq

/-- Errors a go-redis command can carry. `Nil` is `redis.Nil` (the key does
not exist); `conn` is any failure to reach the server; `reply` is an error
reply of the server. -/
inductive RedisErr where
  | Nil
  | conn
  | reply
  deriving DecidableEq

/-- The Redis server seen through `*redis.Client`. -/
structure Redis where
  up : Bool
  data : String → Option Entry

namespace Redis

def Entry.live (e : Entry) (now : Nat) : Bool :=
  match e.expireAt with
  | none => true
  | some t => decide (now < t)

/-- The entry under `key` at instant `now`, expired entries being absent. -/
def lookup (r : Redis) (key : String) (now : Nat) : Option Entry :=
  match r.data key with
  | none => none
  | some e => if Entry.live e now then some e else none

def put (r : Redis) (key : String) (e : Entry) : Redis :=
  { r with data := fun k => if k = key then some e else r.data k }

def del (r : Redis) (key : String) : Redis :=
  { r with data := fun k => if k = key then none else r.data k }

/-- The command `GET key` and `.Result()`. -/
def Get (r : Redis) (key : String) (now : Nat) : Except RedisErr String :=
  if r.up then
    match r.lookup key now with
    | none => .error .Nil
    | some e => .ok e.val
  else .error .conn

/-- The integers Redis accepts as the value of a counter: canonical decimal
text of a signed 64-bit number. -/
def counterValue (s : String) : Option Int :=
  match ParseInt s with
  | (n, none) => if Itoa n = s then some n else none
  | _ => none

/-- The command `INCR key`: an absent key counts from 0 and gets no
time-to-live; an existing key keeps its time-to-live. -/
def Incr (r : Redis) (key : String) (now : Nat) : Redis × Except RedisErr Int :=
  if r.up then
    match r.lookup key now with
    | none => (r.put key ⟨Itoa 1, none⟩, .ok 1)
    | some e =>
      match counterValue e.val with
      | none => (r, .error .reply)
      | some n =>
        if n = 2 ^ 63 - 1 then (r, .error .reply)
        else (r.put key ⟨Itoa (n + 1), e.expireAt⟩, .ok (n + 1))
  else (r, .error .conn)

/-- How go-redis prints a duration in seconds (`formatSec`). -/
def formatSec (dur : Duration) : Int :=
  if 0 < dur ∧ dur < Second then 1 else Int.tdiv dur Second

/-- How go-redis prints a duration in milliseconds (`formatMs`). -/
def formatMs (dur : Duration) : Int :=
  if 0 < dur ∧ dur < Millisecond then 1 else Int.tdiv dur Millisecond

/-- Whether go-redis sends the duration in milliseconds (`usePrecise`). -/
def usePrecise (dur : Duration) : Bool :=
  decide (dur < Second) || decide (Int.tmod dur Second ≠ 0)

/-- The command `EXPIRE key seconds` as `client.Expire(ctx, key, dur)` sends
it: a live key gets the new expiry instant (and is deleted when the
time-to-live is not positive), an absent key is left absent. -/
def Expire (r : Redis) (key : String) (dur : Duration) (now : Nat) : Redis × Except RedisErr Bool :=
  if r.up then
    match r.lookup key now with
    | none => (r, .ok false)
    | some e =>
      let secs := formatSec dur
      if secs ≤ 0 then (r.del key, .ok true)
      else (r.put key ⟨e.val, some (now + secs.toNat * 1000000000)⟩, .ok true)
  else (r, .error .conn)

/-- The time-to-live, in nanoseconds, that `client.Set(ctx, key, v, dur)`
gives the key: none when `dur` is not positive, otherwise `dur` cut to whole
milliseconds (at least one) or sent in whole seconds. -/
def setTTL (dur : Duration) : Option Nat :=
  if 0 < dur then
    if usePrecise dur then some ((formatMs dur).toNat * 1000000)
    else some ((formatSec dur).toNat * 1000000000)
  else none

/-- The command `SET key value [PX ms | EX s | KEEPTTL]` as `client.Set`
sends it; the duration -1 is `redis.KeepTTL`. -/
def Set (r : Redis) (key : String) (value : String) (dur : Duration) (now : Nat) :
    Redis × Except RedisErr String :=
  if r.up then
    if dur = -1 then
      (r.put key ⟨value, (r.lookup key now).bind (fun e => e.expireAt)⟩, .ok "OK")
    else
      (r.put key ⟨value, (setTTL dur).map (fun t => now + t)⟩, .ok "OK")
  else (r, .error .conn)

/-- The method `(*StringCmd).Int()`: the command's error if it has one, with
value 0, otherwise `strconv.Atoi` of the reply. -/
def StringCmdInt (reply : Except RedisErr String) : Int × Bool :=
  match reply with
  | .error _ => (0, false)
  | .ok s => ((Atoi s).1, (Atoi s).2.isNone)

end Redis

/-! ## net/http -/

/-- What a handler does with its `http.ResponseWriter`. -/
inductive Response where
  /-- The call `http.Error(w, msg, code)`. -/
  | error (msg : String) (code : Nat)
  /-- The call `http.Redirect(w, r, url, code)`. -/
  | redirect (url : String) (code : Nat)
  deriving DecidableEq

def StatusMovedPermanently : Nat := 301
def StatusNotFound : Nat := 404
def StatusTooManyRequests : Nat := 429

/-- The fields of `*http.Request` the handlers read. -/
structure Request where
  RemoteAddr : String
  shortID : String
  UserAgent : String
  deriving DecidableEq

/-! ## api/middleware/ratelimit.go -/

/-- What the middleware did with a request: answered it itself, or handed
it to `next.ServeHTTP`. -/
inductive Verdict where
  | answered (resp : Response)
  | next
  deriving DecidableEq

/-- The count the middleware reads: `count, _ := redisClient.Get(ctx, key).Int()`. -/
def readCount (redisClient : Redis) (key : String) (now : Nat) : Int :=
  (Redis.StringCmdInt (redisClient.Get key now)).1

/-- The handler built by `RateLimitMiddleware(redisClient)(next)`, run on
request `r` at instant `now`: the Redis state it leaves and its verdict. -/
def RateLimitMiddleware (redisClient : Redis) (r : Request) (now : Nat) : Redis × Verdict :=
  let ip := r.RemoteAddr
  let key := "rate:" ++ ip
  let count := readCount redisClient key now
  if count ≥ 10 then
    (redisClient, .answered (.error "Rate limit exceeded" StatusTooManyRequests))
  else
    let r1 := (redisClient.Incr key now).1
    let r2 := (r1.Expire key Minute now).1
    (r2, .next)

/-- Sequential requests of one client at the instants `ts`, each run on the
state the previous one left: the verdicts, in order, and the final state. -/
def serveAll (redisClient : Redis) (r : Request) : List Nat → Redis × List Verdict
  | [] => (redisClient, [])
  | t :: ts =>
    let step := RateLimitMiddleware redisClient r t
    let rest := serveAll step.1 r ts
    (rest.1, step.2 :: rest.2)

/-! ## queries/sqlc -/

/-- A row of the table of mappings, as `db.GetURL` returns it
(`sqlc.Url`): the fields the handlers read. -/
structure Url where
  ShortID : String
  LongUrl : String
  UserID : Option (List Nat)
  deriving DecidableEq

/-- The argument of `db.LogClick` (`sqlc.LogClickParams`). -/
structure LogClickParams where
  ShortID : String
  IpAddress : String
  UserAgent : String
  ClickedAt : Nat
  deriving DecidableEq

/-- Errors of a store query: `pgx.ErrNoRows` (no such record) or anything
else (the store cannot be reached, the query failed). -/
inductive DbErr where
  | ErrNoRows
  | unavailable
  deriving DecidableEq

/-- The generated query object `*sqlc.Queries`, taken as given: the result
of each query the resolution path issues. -/
structure Queries where
  GetURL : String → Except DbErr Url
  LogClick : LogClickParams → Except DbErr Unit

/-! ## api/handlers/redirect.go -/

/-- The method `(*StringCmd).Result()`: the value (empty on an error) and
the error. -/
def StringCmdResult (reply : Except RedisErr String) : String × Option RedisErr :=
  match reply with
  | .error e => ("", some e)
  | .ok s => (s, none)

/-- What one run of the handler did. -/
structure RedirectResult where
  /-- The Redis state it leaves. -/
  redis : Redis
  /-- The answer written to the client. -/
  response : Response
  /-- The identifiers passed to `db.GetURL`, one per query. -/
  storeQueries : List String
  /-- The calls `redisClient.Set(ctx, key, value, expiration)`. -/
  cacheWrites : List (String × String × Duration)
  /-- The calls `db.LogClick` issued from the detached goroutine. -/
  clickWrites : List LogClickParams

/-- The handler `RedirectURL(db, redisClient, geoAPIURL)` run on request `r`
at instant `now`. -/
def RedirectURL (db : Queries) (redisClient : Redis) (r : Request) (now : Nat) : RedirectResult :=
  let shortID := r.shortID
  let click : LogClickParams := ⟨shortID, r.RemoteAddr, r.UserAgent, now⟩
  let (longURL, err) := StringCmdResult (redisClient.Get ("url:" ++ shortID) now)
  if err = some RedisErr.Nil then
    match db.GetURL shortID with
    | .error _ =>
      ⟨redisClient, .error "URL not found" StatusNotFound, [shortID], [], []⟩
    | .ok url =>
      let longURL := url.LongUrl
      let redis1 := (redisClient.Set ("url:" ++ shortID) longURL (24 * 60 * 60) now).1
      ⟨redis1, .redirect longURL StatusMovedPermanently, [shortID],
        [("url:" ++ shortID, longURL, 24 * 60 * 60)], [click]⟩
  else
    ⟨redisClient, .redirect longURL StatusMovedPermanently, [], [], [click]⟩

/-! ## api/handlers/shorten.go -/

/-- A value of `uuid.UUID`: sixteen bytes. -/
abbrev UUID := Fin 16 → Fin 256

/-- The call `uuid.New()` on the sixteen bytes read from the random source:
byte 6 gets the version nibble 4 and byte 8 the variant bits 10. -/
def uuidNew (raw : Fin 16 → Fin 256) : UUID := fun i =>
  if i = 6 then ⟨(((raw 6).val &&& 0x0f) ||| 0x40) % 256, Nat.mod_lt _ (by decide)⟩
  else if i = 8 then ⟨(((raw 8).val &&& 0x3f) ||| 0x80) % 256, Nat.mod_lt _ (by decide)⟩
  else raw i

/-- Base62 characters: 0-9, a-z, A-Z. -/
def charset : String := "0123456789abcdefghijklmnopqrstuvwxyzABCDEFGHIJKLMNOPQRSTUVWXYZ"

/-- The length of a generated identifier. -/
def idLength : Nat := 8

/-- The index computed at iteration `i` of the loop:
`int(randomBytes[i%16]) % len(charset)`. -/
def charsetIndex (randomBytes : UUID) (i : Nat) : Nat :=
  (randomBytes ⟨i % 16, Nat.mod_lt _ (by decide)⟩).val % charset.length

/-- The byte stored at iteration `i`: `charset[idx]`, none standing for the
run-time panic of an index out of range. -/
def shortIDChar (randomBytes : UUID) (i : Nat) : Option Char :=
  charset.data[charsetIndex randomBytes i]?

/-- The iterations `is` of the loop, in order: the bytes stored, or none as
soon as one index is out of range. -/
def fillResult (randomBytes : UUID) : List Nat → Option (List Char)
  | [] => some []
  | i :: is =>
    match shortIDChar randomBytes i with
    | none => none
    | some c => (fillResult randomBytes is).map (fun cs => c :: cs)

/-- The loop `for i := 0; i < length; i++` of `generateShortID` on a given
UUID, and the conversion of the result to a string. -/
def generateShortIDOf (randomBytes : UUID) : Option String :=
  (fillResult randomBytes (List.range idLength)).map String.mk

/-- The function `generateShortID` as a function of the sixteen bytes that
`uuid.New()` draws. -/
def generateShortID (raw : Fin 16 → Fin 256) : Option String :=
  generateShortIDOf (uuidNew raw)

/-- The number of values of the random byte behind position `pos` for which
the loop picks the symbol of index `k` of the charset at that position. -/
def symbolCount (pos k : Nat) : Nat :=
  ((List.finRange 256).filter
    (fun b => decide (charsetIndex (uuidNew (fun _ => b)) pos = k))).length

/-! ## Example data -/

/-- A store holding the single mapping of "abc123XY" to
"https://example.com/page", every query succeeding. -/
def exampleStore : Queries where
  GetURL := fun id =>
    if id = "abc123XY" then .ok ⟨"abc123XY", "https://example.com/page", none⟩
    else .error .ErrNoRows
  LogClick := fun _ => .ok ()

/-- A store that cannot be reached: every query fails with an error other
than "no rows". -/
def downStore : Queries where
  GetURL := fun _ => .error .unavailable
  LogClick := fun _ => .error .unavailable

/-- A reachable Redis server with no key. -/
def emptyRedis : Redis := ⟨true, fun _ => none⟩

/-- A Redis server that cannot be reached. -/
def downRedis : Redis := ⟨false, fun _ => none⟩

/-- The request GET /abc123XY of one client. -/
def exampleRequest : Request := ⟨"10.0.0.1:4242", "abc123XY", "curl"⟩

/-! ## The detached click write -/

/-- The goroutine started by `RedirectURL`: it runs each `db.LogClick` call
the handler issued; the outcomes are dropped, nothing reads them. -/
def clickOutcomes (db : Queries) (res : RedirectResult) : List (Except DbErr Unit) :=
  res.clickWrites.map db.LogClick

/-! ## The JSON handlers: shared types -/

/-- The row type `sqlc.Url` with all its columns. -/
structure UrlRow extends Url where
  CreatedAt : Nat
  ExpiresAt : Option Nat
  ClickLimit : Option Int
  deriving DecidableEq

/-- What a JSON handler does with its `http.ResponseWriter`. -/
inductive ApiResponse where
  /-- The call `http.Error(w, msg, code)`. -/
  | error (msg : String) (code : Nat)
  /-- The body `{"short_url": id}` of `ShortenURL`. -/
  | shortURL (id : String)
  /-- The body of `GetAnalytics`: a count per location. -/
  | analytics (counts : List (String × Nat))
  /-- The body `{"message": text}` of `DeleteURL`. -/
  | message (text : String)
  /-- The body of `UpdateURL`: the updated row. -/
  | urlInfo (row : UrlRow)
  /-- The handler stopped on a run-time panic. -/
  | panicked
  deriving DecidableEq

/-- The conversion `int32(i)` of a Go `int`: the value modulo 2^32, read as
a signed 32-bit number. -/
def int32 (i : Int) : Int := (i + 2 ^ 31) % 2 ^ 32 - 2 ^ 31

/-- The helper `timeToNullable`. -/
def timeToNullable (t : Option Nat) : Option Nat :=
  match t with
  | none => none
  | some v => some v

/-- The helper `intToNullable`. -/
def intToNullable (i : Option Int) : Option Int :=
  match i with
  | none => none
  | some v => some (int32 v)

/-- The helper `sqlc.UUIDToNullable`. -/
def UUIDToNullable (id : Option (List Nat)) : Option (List Nat) :=
  match id with
  | none => none
  | some v => some v

/-! ## api/handlers/shorten.go: ShortenURL -/

/-- The argument of `db.CreateURL` (`sqlc.CreateURLParams`). -/
structure CreateURLParams where
  ShortID : String
  LongUrl : String
  UserID : Option (List Nat)
  CreatedAt : Nat
  ExpiresAt : Option Nat
  ClickLimit : Option Int
  deriving DecidableEq

/-- Errors of the insert: the store rejects the identifier as a duplicate
(unique violation), or anything else. -/
inductive InsertErr where
  | duplicate
  | other
  deriving DecidableEq

/-- The decoded request body of `ShortenURL`. -/
structure ShortenInput where
  LongURL : String
  CustomID : String
  ExpiresAt : Option Nat
  ClickLimit : Option Int
  deriving DecidableEq

/-- What `ShortenURL` reads of its request: the body as `json.Decode` gives
it (none when decoding fails) and the string under "user_id" in the request
context (none when there is none). -/
structure ShortenRequest where
  body : Option ShortenInput
  user_id : Option String
  deriving DecidableEq

/-- What one run of `ShortenURL` did. -/
structure ShortenResult where
  /-- The answer written to the client. -/
  response : ApiResponse
  /-- The results of the calls of `generateShortID`, one per call. -/
  generated : List (Option String)
  /-- The calls `db.CreateURL`, one per insert attempted. -/
  inserts : List CreateURLParams
  deriving DecidableEq

/-- The handler `ShortenURL(db)` run at instant `now`. `Parse` is
`uuid.Parse` and `CreateURL` the insert query of the store, both taken as
given; `rand k` is the sixteen bytes the random source yields at the k-th
call of `uuid.New()`. -/
def ShortenURL (Parse : String → Option (List Nat))
    (CreateURL : CreateURLParams → Except InsertErr UrlRow)
    (rand : Nat → Fin 16 → Fin 256) (r : ShortenRequest) (now : Nat) : ShortenResult :=
  match r.body with
  | none => ⟨.error "Invalid request" 400, [], []⟩
  | some input =>
    let auth : Except ApiResponse (Option (List Nat)) :=
      if input.CustomID ≠ "" then
        match r.user_id with
        | none => .error (.error "Authentication required for custom URLs" 401)
        | some uidStr =>
          match Parse uidStr with
          | none => .error (.error "Invalid user ID" 400)
          | some uid => .ok (some uid)
      else .ok none
    match auth with
    | .error resp => ⟨resp, [], []⟩
    | .ok userID =>
      let generated := if input.CustomID = "" then [generateShortID (rand 0)] else []
      let candidate := if input.CustomID = "" then generateShortID (rand 0) else some input.CustomID
      match candidate with
      | none => ⟨.panicked, generated, []⟩
      | some shortID =>
        let params : CreateURLParams :=
          ⟨shortID, input.LongURL, UUIDToNullable userID, now,
            timeToNullable input.ExpiresAt, intToNullable input.ClickLimit⟩
        match CreateURL params with
        | .error _ => ⟨.error "Failed to create URL" 500, generated, [params]⟩
        | .ok _ => ⟨.shortURL shortID, generated, [params]⟩

/-- A random source whose k-th draw is sixteen bytes of value k. -/
def exampleRand (k : Nat) : Fin 16 → Fin 256 :=
  fun _ => ⟨k % 256, Nat.mod_lt _ (by decide)⟩

/-- An insert query of a store in which "00000020" is already taken: that
identifier is rejected as a duplicate, every other one is accepted. -/
def exampleCreateURL (p : CreateURLParams) : Except InsertErr UrlRow :=
  if p.ShortID = "00000020" then .error .duplicate
  else .ok ⟨⟨p.ShortID, p.LongUrl, p.UserID⟩, p.CreatedAt, p.ExpiresAt, p.ClickLimit⟩

/-- The text of the user 11111111-1111-1111-1111-111111111111 parsed to its
sixteen bytes, any other text of the examples being rejected: `uuid.Parse`
on the strings the examples use. -/
def exampleParse (s : String) : Option (List Nat) :=
  if s = "11111111-1111-1111-1111-111111111111" then some (List.replicate 16 17)
  else if s = "22222222-2222-2222-2222-222222222222" then some (List.replicate 16 34)
  else none

/-! ## api/handlers/analytics.go -/

/-- A row of the table of clicks (`sqlc.Click`): the field the handler reads,
`click.IpAddress.String`. -/
structure Click where
  IpAddress : String
  deriving DecidableEq

/-- The function `getGeoLocation(ip, geoAPIURL)`: "unknown" for an empty
address, otherwise what the exchange with the geo API yields, given here as
`geoAPI`. -/
def getGeoLocation (geoAPI : String → String) (ip : String) : String :=
  if ip = "" then "unknown" else geoAPI ip

/-- Go's `<` on strings, character by character (the order of the code
points is the order of their UTF-8 bytes). -/
def stringLess : List Char → List Char → Bool
  | _, [] => false
  | [], _ :: _ => true
  | a :: as, b :: bs =>
    if a.toNat < b.toNat then true
    else if b.toNat < a.toNat then false
    else stringLess as bs

/-- The statement `analytics[location]++` on a Go map kept as a list of its
entries in increasing order of key, the order in which `encoding/json`
writes the map. -/
def bump (analytics : List (String × Nat)) (location : String) : List (String × Nat) :=
  match analytics with
  | [] => [(location, 1)]
  | (k, n) :: rest =>
    if k = location then (k, n + 1) :: rest
    else if stringLess location.data k.data then (location, 1) :: (k, n) :: rest
    else (k, n) :: bump rest location

/-- The loop of `GetAnalytics` over the clicks: the map it builds, as
`json.NewEncoder(w).Encode(analytics)` writes it. -/
def countLocations (geoAPI : String → String) (clicks : List Click) : List (String × Nat) :=
  clicks.foldl (fun analytics click => bump analytics (getGeoLocation geoAPI click.IpAddress)) []

/-- The handler `GetAnalytics(db, geoAPIURL)` on the identifier `shortID` and
the string under "user_id" in the request context. `Parse` is `uuid.Parse`;
`GetURL` and `ListClicks` are the queries of the store, taken as given. -/
def GetAnalytics (Parse : String → Option (List Nat))
    (GetURL : String → Except DbErr Url)
    (ListClicks : String → Except DbErr (List Click))
    (geoAPI : String → String) (shortID : String) (user_id : Option String) : ApiResponse :=
  let userIDStr := user_id.getD ""
  match Parse userIDStr with
  | none => .error "Invalid user ID" 400
  | some userID =>
    match GetURL shortID with
    | .error _ => .error "Unauthorized or URL not found" 401
    | .ok url =>
      let foreign : Bool :=
        match url.UserID with
        | some bytes => decide (bytes ≠ userID)
        | none => false
      if foreign then .error "Unauthorized or URL not found" 401
      else
        let clicks :=
          match ListClicks shortID with
          | .ok cs => cs
          | .error _ => []
        .analytics (countLocations geoAPI clicks)

/-! ## api/handlers/urls.go -/

/-- The argument of `db.UpdateURL` (`sqlc.UpdateURLParams`). -/
structure UpdateURLParams where
  ShortID : String
  LongUrl : String
  ExpiresAt : Option Nat
  ClickLimit : Option Int
  UserID : Option (List Nat)
  deriving DecidableEq

/-- The argument of `db.DeleteURL` (`sqlc.DeleteURLParams`). -/
structure DeleteURLParams where
  ShortID : String
  UserID : Option (List Nat)
  deriving DecidableEq

/-- The queries of `*sqlc.Queries` on the table of mappings, over a store
state `σ`, taken as given: what each returns and the state it leaves. -/
structure UrlQueries (σ : Type) where
  GetURL : σ → String → Except DbErr UrlRow
  UpdateURL : σ → UpdateURLParams → σ × Except DbErr UrlRow
  DeleteURL : σ → DeleteURLParams → σ × Except DbErr Unit
  LogClick : σ → LogClickParams → Except DbErr Unit

/-- The query object the resolver sees when the store is in state `s`. -/
def queriesAt {σ : Type} (q : UrlQueries σ) (s : σ) : Queries where
  GetURL := fun id =>
    match q.GetURL s id with
    | .error e => .error e
    | .ok row => .ok row.toUrl
  LogClick := q.LogClick s

/-- The decoded request body of `UpdateURL`. -/
structure UpdateInput where
  LongURL : Option String
  ExpiresAt : Option Nat
  ClickLimit : Option Int
  deriving DecidableEq

/-- The handler `DeleteURL(db)` on the store state `s`: the state it leaves
and its answer. -/
def DeleteURL {σ : Type} (Parse : String → Option (List Nat)) (q : UrlQueries σ) (s : σ)
    (shortID : String) (user_id : Option String) : σ × ApiResponse :=
  if shortID = "" then (s, .error "Short ID is required" 400)
  else
    match user_id with
    | none => (s, .error "User ID not found in context" 401)
    | some userIDStr =>
      match Parse userIDStr with
      | none => (s, .error "Invalid user ID" 400)
      | some userID =>
        match q.DeleteURL s ⟨shortID, UUIDToNullable (some userID)⟩ with
        | (s2, .error _) => (s2, .error "Failed to delete URL or URL not found" 500)
        | (s2, .ok _) => (s2, .message "URL deleted successfully")

/-- The handler `UpdateURL(db)` on the store state `s`: the state it leaves
and its answer. -/
def UpdateURL {σ : Type} (Parse : String → Option (List Nat)) (q : UrlQueries σ) (s : σ)
    (shortID : String) (user_id : Option String) (body : Option UpdateInput) :
    σ × ApiResponse :=
  if shortID = "" then (s, .error "Short ID is required" 400)
  else
    match user_id with
    | none => (s, .error "User ID not found in context" 401)
    | some userIDStr =>
      match Parse userIDStr with
      | none => (s, .error "Invalid user ID" 400)
      | some userID =>
        match body with
        | none => (s, .error "Invalid request body" 400)
        | some input =>
          match q.GetURL s shortID with
          | .error _ => (s, .error "URL not found" 404)
          | .ok currentURL =>
            let notOwner : Bool :=
              match currentURL.UserID with
              | none => true
              | some bytes => decide (bytes ≠ userID)
            if notOwner then (s, .error "Unauthorized" 401)
            else
              let longURL := input.LongURL.getD currentURL.LongUrl
              let expiresAt :=
                match input.ExpiresAt with
                | some t => some t
                | none => currentURL.ExpiresAt
              let clickLimit :=
                match input.ClickLimit with
                | some c => some (int32 c)
                | none => currentURL.ClickLimit
              match q.UpdateURL s
                  ⟨shortID, longURL, expiresAt, clickLimit, UUIDToNullable (some userID)⟩ with
              | (s2, .error _) => (s2, .error "Failed to update URL or URL not found" 500)
              | (s2, .ok updatedURL) => (s2, .urlInfo updatedURL)

/-! ## main.go: the handlers mounted on the shared state -/

/-- The state the routes of `main` share: the store behind `queries` and the
Redis server behind `redisClient`. -/
structure World (σ : Type) where
  store : σ
  redis : Redis

/-- The route `r.Put("/urls/{shortID}", handlers.UpdateURL(queries))`: the
handler is built from `queries` alone. -/
def routeUpdate {σ : Type} (Parse : String → Option (List Nat)) (q : UrlQueries σ)
    (w : World σ) (shortID : String) (user_id : Option String) (body : Option UpdateInput) :
    World σ × ApiResponse :=
  (⟨(UpdateURL Parse q w.store shortID user_id body).1, w.redis⟩,
    (UpdateURL Parse q w.store shortID user_id body).2)

/-- The route `r.Delete("/urls/{shortID}", handlers.DeleteURL(queries))`:
the handler is built from `queries` alone. -/
def routeDelete {σ : Type} (Parse : String → Option (List Nat)) (q : UrlQueries σ)
    (w : World σ) (shortID : String) (user_id : Option String) :
    World σ × ApiResponse :=
  (⟨(DeleteURL Parse q w.store shortID user_id).1, w.redis⟩,
    (DeleteURL Parse q w.store shortID user_id).2)

/-- The route `r.Get("/{shortID}", handlers.RedirectURL(queries, redisClient,
cfg.GeoAPIURL))` on the shared state. -/
def routeRedirect {σ : Type} (q : UrlQueries σ) (w : World σ) (r : Request) (now : Nat) :
    RedirectResult :=
  RedirectURL (queriesAt q w.store) w.redis r now

/-- Modelled from the spec: the table of mappings as a list of records with
unique identifiers (section 3, "Mapping record"); a record is read by its
identifier, and updated or deleted by its identifier and owner. The queries
themselves (queries/sqlc) are not part of the sources at hand. -/
def listQueries : UrlQueries (List UrlRow) where
  GetURL := fun s id =>
    match s.find? (fun row => decide (row.ShortID = id)) with
    | some row => .ok row
    | none => .error .ErrNoRows
  UpdateURL := fun s p =>
    match s.find? (fun row => decide (row.ShortID = p.ShortID ∧ row.UserID = p.UserID)) with
    | some row =>
      (s.map (fun x => if x.ShortID = p.ShortID ∧ x.UserID = p.UserID
          then ⟨⟨x.ShortID, p.LongUrl, x.UserID⟩, x.CreatedAt, p.ExpiresAt, p.ClickLimit⟩ else x),
        .ok ⟨⟨row.ShortID, p.LongUrl, row.UserID⟩, row.CreatedAt, p.ExpiresAt, p.ClickLimit⟩)
    | none => (s, .error .ErrNoRows)
  DeleteURL := fun s p =>
    (s.filter (fun row => !decide (row.ShortID = p.ShortID ∧ row.UserID = p.UserID)), .ok ())
  LogClick := fun _ _ => .ok ()

/-- A world in which user 1111.. owns the mapping of "abc123XY" to
"https://example.com/page" and the cache holds that destination, written at
instant 0 and expiring at 1 ms. -/
def exampleWorld : World (List UrlRow) where
  store := [⟨⟨"abc123XY", "https://example.com/page", some (List.replicate 16 17)⟩, 0, none, none⟩]
  redis := ⟨true, fun k =>
    if k = "url:abc123XY" then some ⟨"https://example.com/page", some 1000000⟩ else none⟩

/-! ## The rate limiter under interleaving -/

/-- Where one in-flight request stands in the middleware: before its `Get`;
admitted by the comparison, its `Incr` not yet sent; its `Incr` sent, its
`Expire` not yet sent; or finished, with its verdict. -/
inductive Phase where
  | idle
  | toIncr
  | toExpire
  | finished (v : Verdict)
  deriving DecidableEq

/-- One Redis command of one request, with the local work that follows it
up to the next command: the statements of `RateLimitMiddleware` in order. -/
def stepRequest (redisClient : Redis) (r : Request) (now : Nat) : Phase → Redis × Phase
  | .idle =>
    if readCount redisClient ("rate:" ++ r.RemoteAddr) now ≥ 10 then
      (redisClient,
        .finished (.answered (.error "Rate limit exceeded" StatusTooManyRequests)))
    else (redisClient, .toIncr)
  | .toIncr => ((redisClient.Incr ("rate:" ++ r.RemoteAddr) now).1, .toExpire)
  | .toExpire =>
    ((redisClient.Expire ("rate:" ++ r.RemoteAddr) Minute now).1, .finished .next)
  | .finished v => (redisClient, .finished v)

/-- The shared counter store and the requests in flight. -/
structure Sys where
  redis : Redis
  phases : List Phase

/-- The scheduler lets request `i` run its next command. -/
def stepAt (r : Request) (now : Nat) (s : Sys) (i : Nat) : Sys :=
  match s.phases[i]? with
  | none => s
  | some p =>
    ⟨(stepRequest s.redis r now p).1, s.phases.set i (stepRequest s.redis r now p).2⟩

/-- A schedule: the requests in the order in which they get to run a
command. -/
def runSchedule (r : Request) (now : Nat) (s : Sys) (schedule : List Nat) : Sys :=
  schedule.foldl (stepAt r now) s

/-- The schedule without interleaving: requests `start`, `start + 1`, ... one
after the other, each running its three steps in a row. -/
def seqSchedule : Nat → Nat → List Nat
  | _, 0 => []
  | start, n + 1 => start :: start :: start :: seqSchedule (start + 1) n

/-- The schedule in which all `n` requests read the count, then all
increment, then all set the expiry. -/
def readsFirstSchedule (n : Nat) : List Nat :=
  List.range n ++ List.range n ++ List.range n

/-- The number of requests handed to the next handler. -/
def admitted (s : Sys) : Nat :=
  (s.phases.filter (fun p => decide (p = .finished .next))).length

/-! ## net/http: the Location header written by http.Redirect -/

/-- The function `path.Split`: the path up to and including its last slash,
and what follows it. -/
def pathSplit (p : String) : String × String :=
  let file := (p.data.reverse.takeWhile (fun c => decide (c ≠ '/'))).reverse
  (String.mk (p.data.take (p.data.length - file.length)), String.mk file)

/-- The elements of a path, between its slashes; `cur` is the element being
read, last character first. -/
def splitSlash : List Char → List Char → List (List Char)
  | [], cur => [cur.reverse]
  | c :: cs, cur =>
    if c = '/' then cur.reverse :: splitSlash cs [] else splitSlash cs (c :: cur)

/-- One element read by `path.Clean`; `stack` holds the elements kept so
far, last one first. Empty and "." elements are dropped; ".." removes the
last element kept, is dropped at the root, and is kept in front of a path
that is not rooted. -/
def cleanStep (rooted : Bool) (stack : List (List Char)) (el : List Char) :
    List (List Char) :=
  if el = [] ∨ el = ['.'] then stack
  else if el = ['.', '.'] then
    match stack with
    | [] => if rooted then [] else [el]
    | top :: rest => if top = ['.', '.'] then el :: stack else rest
  else el :: stack

/-- The elements joined with slashes. -/
def joinSlash : List (List Char) → List Char
  | [] => []
  | [el] => el
  | el :: rest => el ++ '/' :: joinSlash rest

/-- The function `path.Clean`. -/
def pathClean (p : String) : String :=
  if p = "" then "."
  else
    let rooted := decide (p.data.head? = some '/')
    let kept := ((splitSlash p.data []).foldl (cleanStep rooted) []).reverse
    let out := if rooted then '/' :: joinSlash kept else joinSlash kept
    if out = [] then "." else String.mk out

/-- A hexadecimal digit, in lower case. -/
def hexDigit (n : Nat) : Char := if n < 10 then Char.ofNat (48 + n) else Char.ofNat (87 + n)

/-- The UTF-8 bytes of a character. -/
def utf8Bytes (c : Char) : List Nat :=
  let n := c.toNat
  if n < 128 then [n]
  else if n < 2048 then [192 + n / 64, 128 + n % 64]
  else if n < 65536 then [224 + n / 4096, 128 + n / 64 % 64, 128 + n % 64]
  else [240 + n / 262144, 128 + n / 4096 % 64, 128 + n / 64 % 64, 128 + n % 64]

/-- Each byte written as a percent sign and two hexadecimal digits. -/
def escapeBytes : List Nat → List Char
  | [] => []
  | b :: bs => '%' :: hexDigit (b / 16) :: hexDigit (b % 16) :: escapeBytes bs

/-- The loop of `hexEscapeNonASCII`: bytes below 0x80 are kept, the others
escaped. -/
def hexEscapeChars : List Char → List Char
  | [] => []
  | c :: cs =>
    (if c.toNat < 128 then [c] else escapeBytes (utf8Bytes c)) ++ hexEscapeChars cs

/-- The function `hexEscapeNonASCII` of net/http. -/
def hexEscapeNonASCII (s : String) : String := String.mk (hexEscapeChars s.data)

/-- The value `http.Redirect(w, r, url, code)` gives the Location header.
`urlParse` is `url.Parse`, taken as given: the scheme and the host it finds,
none when it fails; `oldpath` is `r.URL.Path`. A target without scheme and
host is made absolute against the directory of the request path and
cleaned, its query kept; the result is escaped. -/
def redirectLocation (urlParse : String → Option (String × String)) (oldpath : String)
    (url : String) : String :=
  let target :=
    match urlParse url with
    | none => url
    | some (scheme, host) =>
      if scheme = "" ∧ host = "" then
        let oldpath := if oldpath = "" then "/" else oldpath
        let url1 :=
          if url = "" ∨ url.data.head? ≠ some '/' then (pathSplit oldpath).1 ++ url else url
        let path := url1.data.takeWhile (fun c => decide (c ≠ '?'))
        let query := url1.data.drop path.length
        let trailing := decide (path.getLast? = some '/')
        let cleaned := pathClean (String.mk path)
        let url2 :=
          if trailing ∧ cleaned.data.getLast? ≠ some '/' then cleaned ++ "/" else cleaned
        url2 ++ String.mk query
      else url
  hexEscapeNonASCII target

/-- The Location header of an answer: the one `http.Redirect` writes; an
answer made by `http.Error` has none. -/
def locationHeader (urlParse : String → Option (String × String)) (oldpath : String) :
    Response → Option String
  | .redirect url _ => some (redirectLocation urlParse oldpath url)
  | .error _ _ => none

/-- The scheme and host `url.Parse` finds in the strings the examples use:
none in the empty string and in "example.com/page", "https" and
"example.com" in "https://example.com/page". -/
def exampleUrlParse (s : String) : Option (String × String) :=
  if s = "" then some ("", "")
  else if s = "example.com/page" then some ("", "")
  else if s = "https://example.com/page" then some ("https", "example.com")
  else none

/-- A store holding the single mapping of "abc123XY" to the destination `d`. -/
def storeWith (d : String) : Queries where
  GetURL := fun id =>
    if id = "abc123XY" then .ok ⟨"abc123XY", d, none⟩ else .error .ErrNoRows
  LogClick := fun _ => .ok ()

/-! ## Decimal text: printing then parsing -/

theorem digitChar_toNat (d : Nat) (h : d < 10) : (digitChar d).toNat = 48 + d := by
  interval_cases d <;> rfl

theorem isDigit_digitChar (d : Nat) (h : d < 10) : isDigit (digitChar d) = true := by
  interval_cases d <;> rfl

theorem formatUintAux_append (fuel n : Nat) (acc : List Char) :
    formatUintAux fuel n acc = formatUintAux fuel n [] ++ acc := by
  induction fuel generalizing n acc with
  | zero => simp [formatUintAux]
  | succ f ih =>
    unfold formatUintAux
    split
    · simp
    · rw [ih (n / 10) (digitChar (n % 10) :: acc), ih (n / 10) [digitChar (n % 10)]]
      simp

theorem formatUintAux_digits (fuel n : Nat) :
    ∀ c ∈ formatUintAux fuel n [], isDigit c = true := by
  induction fuel generalizing n with
  | zero => simp [formatUintAux]
  | succ f ih =>
    intro c hc
    unfold formatUintAux at hc
    split at hc
    · simp at hc
      subst hc
      exact isDigit_digitChar n (by assumption)
    · rw [formatUintAux_append] at hc
      simp at hc
      rcases hc with hc | hc
      · exact ih _ c hc
      · subst hc
        exact isDigit_digitChar _ (Nat.mod_lt _ (by decide))

theorem formatUintAux_ne_nil (fuel n : Nat) : formatUintAux (fuel + 1) n [] ≠ [] := by
  unfold formatUintAux
  split
  · simp
  · rw [formatUintAux_append]
    simp

theorem foldl_formatUintAux (fuel n : Nat) (h : n < fuel) :
    (formatUintAux fuel n []).foldl digitVal 0 = n := by
  induction fuel generalizing n with
  | zero => omega
  | succ f ih =>
    unfold formatUintAux
    split
    · rename_i hn
      simp [digitVal, digitChar_toNat n hn]
    · rename_i hn
      rw [formatUintAux_append]
      have hlt : n / 10 < f := by omega
      simp [List.foldl_append, ih (n / 10) hlt, digitVal,
        digitChar_toNat (n % 10) (Nat.mod_lt _ (by decide))]
      omega

theorem le_foldl_digitVal (ds : List Char) (m : Nat) : m ≤ ds.foldl digitVal m := by
  induction ds generalizing m with
  | nil => simp
  | cons c cs ih =>
    simp only [List.foldl_cons]
    have h1 := ih (digitVal m c)
    have h2 : m ≤ digitVal m c := by unfold digitVal; omega
    omega

theorem parseUintLoop_digits (ds : List Char) (m : Nat)
    (hd : ∀ c ∈ ds, isDigit c = true) (hb : ds.foldl digitVal m ≤ maxUint64) :
    parseUintLoop ds m = .ok (ds.foldl digitVal m) := by
  induction ds generalizing m with
  | nil => simp [parseUintLoop]
  | cons c cs ih =>
    simp only [List.foldl_cons] at hb ⊢
    have hc : isDigit c = true := hd c (by simp)
    have hle := le_foldl_digitVal cs (digitVal m c)
    have hm : digitVal m c ≤ maxUint64 := by omega
    have hm1 : ¬ (m ≥ maxUint64 / 10 + 1) := by
      unfold digitVal at hm
      unfold maxUint64 at hm ⊢
      omega
    have hm2 : ¬ (m * 10 + (c.toNat - 48) > maxUint64) := by
      unfold digitVal at hm
      omega
    unfold parseUintLoop
    simp only [hc, if_true, hm1, hm2, if_false]
    exact ih (digitVal m c) (fun c hc => hd c (by simp [hc])) hb

theorem ParseUint_FormatUint (n : Nat) (h : n ≤ maxUint64) :
    ParseUint (FormatUint n).data = .ok n := by
  have hne := formatUintAux_ne_nil n n
  have hfold := foldl_formatUintAux (n + 1) n (by omega)
  have hp := parseUintLoop_digits (formatUintAux (n + 1) n []) 0
    (formatUintAux_digits (n + 1) n) (by rw [hfold]; exact h)
  rw [hfold] at hp
  unfold ParseUint FormatUint
  simp only
  cases hds : formatUintAux (n + 1) n [] with
  | nil => exact absurd hds hne
  | cons c cs =>
    rw [hds] at hp
    exact hp

theorem FormatUint_head (n : Nat) :
    ∃ c cs, (FormatUint n).data = c :: cs ∧ c ≠ '+' ∧ c ≠ '-' := by
  have hne := formatUintAux_ne_nil n n
  have hd := formatUintAux_digits (n + 1) n
  unfold FormatUint
  simp only
  cases hds : formatUintAux (n + 1) n [] with
  | nil => exact absurd hds hne
  | cons c cs =>
    refine ⟨c, cs, rfl, ?_, ?_⟩
    · intro hc
      have := hd c (by rw [hds]; simp)
      rw [hc] at this
      exact absurd this (by decide)
    · intro hc
      have := hd c (by rw [hds]; simp)
      rw [hc] at this
      exact absurd this (by decide)

/-- Parsing the canonical text of a signed 64-bit integer gives it back,
without error. -/
theorem ParseInt_Itoa (i : Int) (hlo : -(2 ^ 63 : Int) ≤ i) (hhi : i ≤ 2 ^ 63 - 1) :
    ParseInt (Itoa i) = (i, none) := by
  by_cases hneg : i < 0
  · have hn : (-i).toNat ≤ maxUint64 := by unfold maxUint64; omega
    have hp := ParseUint_FormatUint (-i).toNat hn
    unfold Itoa ParseInt
    simp only [hneg, if_true, hp]
    have h63 : ¬ (9223372036854775808 < (-i).toNat) := by omega
    have hval : -((-i).toNat : Int) = i := by omega
    simp
    rw [hp]
    simp only [if_neg h63, hval]
  · obtain ⟨c, cs, hcs, hplus, hminus⟩ := FormatUint_head i.toNat
    have hn : i.toNat ≤ maxUint64 := by unfold maxUint64; omega
    have hp := ParseUint_FormatUint i.toNat hn
    rw [hcs] at hp
    unfold Itoa ParseInt
    simp only [hneg, if_false, hcs, hplus, hminus, or_self, hp]
    have h63 : ¬ (9223372036854775808 ≤ i.toNat) := by omega
    have hval : max i 0 = i := max_eq_left (by omega)
    simp
    rw [if_neg h63, hval]

theorem counterValue_Itoa (i : Int) (hlo : -(2 ^ 63 : Int) ≤ i) (hhi : i ≤ 2 ^ 63 - 1) :
    Redis.counterValue (Itoa i) = some i := by
  unfold Redis.counterValue
  rw [ParseInt_Itoa i hlo hhi]
  simp

/-! ## The rate limiter, one request at a time -/

theorem formatSec_Minute : Redis.formatSec Minute = 60 := by decide

theorem Atoi_Itoa (i : Int) (hlo : -(2 ^ 63 : Int) ≤ i) (hhi : i ≤ 2 ^ 63 - 1) :
    Atoi (Itoa i) = (i, none) := ParseInt_Itoa i hlo hhi

/-- The count read from a live counter holding the canonical text of `c`. -/
theorem readCount_counting (redisClient : Redis) (key : String) (now e : Nat) (c : Int)
    (hup : redisClient.up = true) (hd : redisClient.data key = some ⟨Itoa c, some e⟩)
    (hlive : now < e) (hlo : -(2 ^ 63 : Int) ≤ c) (hhi : c ≤ 2 ^ 63 - 1) :
    readCount redisClient key now = c := by
  simp [readCount, Redis.Get, Redis.lookup, Redis.Entry.live, Redis.StringCmdInt, hup, hd, hlive,
    Atoi_Itoa c hlo hhi]

/-- The count read when the key is absent is 0. -/
theorem readCount_absent (redisClient : Redis) (key : String) (now : Nat)
    (habs : redisClient.lookup key now = none) :
    readCount redisClient key now = 0 := by
  unfold readCount Redis.Get
  cases redisClient.up <;> simp [habs, Redis.StringCmdInt]

theorem put_up (redisClient : Redis) (key : String) (e : Entry) :
    (redisClient.put key e).up = redisClient.up := rfl

theorem put_data_same (redisClient : Redis) (key : String) (e : Entry) :
    (redisClient.put key e).data key = some e := by
  simp [Redis.put]

theorem put_data_other (redisClient : Redis) (key k : String) (e : Entry) (h : k ≠ key) :
    (redisClient.put key e).data k = redisClient.data k := by
  simp [Redis.put, h]

theorem put_put (redisClient : Redis) (key : String) (e1 e2 : Entry) :
    (redisClient.put key e1).put key e2 = redisClient.put key e2 := by
  unfold Redis.put
  simp only
  congr 1
  funext k
  by_cases h : k = key <;> simp [h]

theorem lookup_of_data (redisClient : Redis) (key : String) (now : Nat) (e : Entry)
    (hd : redisClient.data key = some e) (hlive : Redis.Entry.live e now = true) :
    redisClient.lookup key now = some e := by
  simp [Redis.lookup, hd, hlive]

theorem lookup_put_same (redisClient : Redis) (key : String) (now : Nat) (e : Entry)
    (hlive : Redis.Entry.live e now = true) :
    (redisClient.put key e).lookup key now = some e :=
  lookup_of_data _ key now e (put_data_same redisClient key e) hlive

theorem Incr_absent (redisClient : Redis) (key : String) (now : Nat)
    (hup : redisClient.up = true) (habs : redisClient.lookup key now = none) :
    (redisClient.Incr key now).1 = redisClient.put key ⟨Itoa 1, none⟩ := by
  simp [Redis.Incr, hup, habs]

theorem Incr_counting (redisClient : Redis) (key : String) (now : Nat) (e : Entry) (n : Int)
    (hup : redisClient.up = true) (hl : redisClient.lookup key now = some e)
    (hv : Redis.counterValue e.val = some n) (hmax : n ≠ 2 ^ 63 - 1) :
    (redisClient.Incr key now).1 = redisClient.put key ⟨Itoa (n + 1), e.expireAt⟩ := by
  have hmax2 : ¬ (n = 9223372036854775807) := by omega
  simp [Redis.Incr, hup, hl, hv, hmax2]

theorem Expire_Minute_live (redisClient : Redis) (key : String) (now : Nat) (e : Entry)
    (hup : redisClient.up = true) (hl : redisClient.lookup key now = some e) :
    (redisClient.Expire key Minute now).1
      = redisClient.put key ⟨e.val, some (now + 60000000000)⟩ := by
  simp [Redis.Expire, hup, hl, formatSec_Minute]

/-- First request on an absent key: admitted, the counter becomes 1 and
expires 60 s later. -/
theorem rateLimit_absent (redisClient : Redis) (r : Request) (now : Nat)
    (hup : redisClient.up = true)
    (habs : redisClient.lookup ("rate:" ++ r.RemoteAddr) now = none) :
    RateLimitMiddleware redisClient r now
      = (redisClient.put ("rate:" ++ r.RemoteAddr) ⟨Itoa 1, some (now + 60000000000)⟩, .next) := by
  have hc := readCount_absent redisClient _ now habs
  have h1 := Incr_absent redisClient _ now hup habs
  have h2 := Expire_Minute_live (redisClient.put ("rate:" ++ r.RemoteAddr) ⟨Itoa 1, none⟩)
    ("rate:" ++ r.RemoteAddr) now ⟨Itoa 1, none⟩ hup (lookup_put_same _ _ _ _ rfl)
  unfold RateLimitMiddleware
  simp only [hc, h1, h2, put_put]
  simp

/-- A request on a live counter below 10: admitted, the counter goes up by
one and its expiry is set to 60 s after this request. -/
theorem rateLimit_counting (redisClient : Redis) (r : Request) (now e : Nat) (c : Int)
    (hup : redisClient.up = true)
    (hd : redisClient.data ("rate:" ++ r.RemoteAddr) = some ⟨Itoa c, some e⟩)
    (hlive : now < e) (hlo : -(2 ^ 63 : Int) ≤ c) (hhi : c < 10) :
    RateLimitMiddleware redisClient r now
      = (redisClient.put ("rate:" ++ r.RemoteAddr) ⟨Itoa (c + 1), some (now + 60000000000)⟩,
          .next) := by
  have hc := readCount_counting redisClient _ now e c hup hd hlive hlo (by omega)
  have hcv := counterValue_Itoa c hlo (by omega)
  have hne : c ≠ 2 ^ 63 - 1 := by omega
  have hnot : ¬ (10 ≤ c) := by omega
  have hl := lookup_of_data redisClient _ now _ hd (by simp [Redis.Entry.live, hlive])
  have h1 := Incr_counting redisClient _ now _ c hup hl hcv hne
  have h2 := Expire_Minute_live
    (redisClient.put ("rate:" ++ r.RemoteAddr) ⟨Itoa (c + 1), some e⟩)
    ("rate:" ++ r.RemoteAddr) now ⟨Itoa (c + 1), some e⟩ hup
    (lookup_put_same _ _ _ _ (by simp [Redis.Entry.live, hlive]))
  unfold RateLimitMiddleware
  simp only [hc, h1, h2, put_put]
  simp [hnot]

/-- A request on a live counter at 10 or more: refused, nothing changes. -/
theorem rateLimit_full (redisClient : Redis) (r : Request) (now e : Nat) (c : Int)
    (hup : redisClient.up = true)
    (hd : redisClient.data ("rate:" ++ r.RemoteAddr) = some ⟨Itoa c, some e⟩)
    (hlive : now < e) (hlo : 10 ≤ c) (hhi : c ≤ 2 ^ 63 - 1) :
    RateLimitMiddleware redisClient r now
      = (redisClient, .answered (.error "Rate limit exceeded" StatusTooManyRequests)) := by
  have hc := readCount_counting redisClient _ now e c hup hd hlive (by omega) hhi
  simp [RateLimitMiddleware, hc, hlo]

/-! ## The rate limiter over a sequence of requests -/

theorem serveAll_append (redisClient : Redis) (r : Request) (a b : List Nat) :
    serveAll redisClient r (a ++ b)
      = ((serveAll (serveAll redisClient r a).1 r b).1,
          (serveAll redisClient r a).2 ++ (serveAll (serveAll redisClient r a).1 r b).2) := by
  induction a generalizing redisClient with
  | nil => simp [serveAll]
  | cons t ts ih => simp [serveAll, ih]

/-- While the counter stays below 10 and every request falls before the
expiry the previous one set, every request is admitted and counted. -/
theorem serveAll_counting (r : Request) (lo : Nat) (ts : List Nat) :
    ∀ (redisClient : Redis) (c e : Nat), redisClient.up = true →
      redisClient.data ("rate:" ++ r.RemoteAddr) = some ⟨Itoa (c : Int), some e⟩ →
      lo + 60000000000 ≤ e →
      (∀ t ∈ ts, lo ≤ t ∧ t < lo + 60000000000) →
      c + ts.length ≤ 10 →
      (serveAll redisClient r ts).2 = List.replicate ts.length Verdict.next ∧
      (serveAll redisClient r ts).1.up = true ∧
      ∃ e2, lo + 60000000000 ≤ e2 ∧
        (serveAll redisClient r ts).1.data ("rate:" ++ r.RemoteAddr)
          = some ⟨Itoa ((c + ts.length : Nat) : Int), some e2⟩ := by
  induction ts with
  | nil =>
    intro redisClient c e hup hd he _ _
    exact ⟨rfl, hup, e, he, by simpa using hd⟩
  | cons t ts ih =>
    intro redisClient c e hup hd he hts hlen
    have ht := hts t (by simp)
    simp only [List.length_cons] at hlen
    have hstep := rateLimit_counting redisClient r t e (c : Int) hup hd (by omega)
      (by omega) (by omega)
    have hcast : ((c : Int) + 1) = ((c + 1 : Nat) : Int) := by push_cast; rfl
    rw [hcast] at hstep
    obtain ⟨h1, h2, e2, h3, h4⟩ := ih
      (redisClient.put ("rate:" ++ r.RemoteAddr) ⟨Itoa ((c + 1 : Nat) : Int), some (t + 60000000000)⟩)
      (c + 1) (t + 60000000000) hup (put_data_same _ _ _) (by omega)
      (fun u hu => hts u (by simp [hu])) (by omega)
    simp only [serveAll, hstep, List.length_cons, List.replicate_succ]
    refine ⟨by rw [h1], h2, e2, h3, ?_⟩
    rw [h4]
    congr 3
    omega

/-! ## Claims about the rate limiter -/

/-- C1: for every client address and every counter state the middleware
refuses a request (429, control not passed to the next handler) exactly
when the count it read under "rate:" + address is at least 10 and passes it
on otherwise; and, starting from an absent key on a reachable counter store,
of 11 sequential requests made inside the 60 s window opened by the first,
the first ten are admitted and the eleventh is refused. -/
theorem rateLimit_denies_iff_count_ge_ten (redisClient : Redis) (r : Request) (now : Nat) :
    ((RateLimitMiddleware redisClient r now).2
        = .answered (.error "Rate limit exceeded" StatusTooManyRequests)
      ↔ 10 ≤ readCount redisClient ("rate:" ++ r.RemoteAddr) now) ∧
    ((RateLimitMiddleware redisClient r now).2 = .next
      ↔ readCount redisClient ("rate:" ++ r.RemoteAddr) now < 10) ∧
    (∀ (t0 tlast : Nat) (mid : List Nat),
      redisClient.up = true →
      redisClient.lookup ("rate:" ++ r.RemoteAddr) t0 = none →
      mid.length = 9 →
      (∀ t ∈ mid ++ [tlast], t0 ≤ t ∧ t < t0 + 60000000000) →
      (serveAll redisClient r (t0 :: (mid ++ [tlast]))).2
        = List.replicate 10 Verdict.next
          ++ [.answered (.error "Rate limit exceeded" StatusTooManyRequests)]) := by
  refine ⟨?_, ?_, ?_⟩
  · unfold RateLimitMiddleware
    by_cases h : 10 ≤ readCount redisClient ("rate:" ++ r.RemoteAddr) now
    · simp [h]
    · simp [h]
  · unfold RateLimitMiddleware
    by_cases h : 10 ≤ readCount redisClient ("rate:" ++ r.RemoteAddr) now
    · simp [h]
    · simp [h]
      omega
  · intro t0 tlast mid hup habs hlen hts
    have hfirst := rateLimit_absent redisClient r t0 hup habs
    obtain ⟨h1, h2, e2, h3, h4⟩ := serveAll_counting r t0 mid
      (redisClient.put ("rate:" ++ r.RemoteAddr) ⟨Itoa 1, some (t0 + 60000000000)⟩)
      1 (t0 + 60000000000) hup (put_data_same _ _ _) (by omega)
      (fun u hu => hts u (by simp [hu])) (by omega)
    have hlast := hts tlast (by simp)
    rw [hlen] at h4 h1
    have hfull := rateLimit_full _ r tlast e2 (((1 + 9 : Nat)) : Int) h2 h4 (by omega)
      (by norm_num) (by norm_num)
    simp only [serveAll, hfirst, serveAll_append, h1, hfull]
    rfl

/-- C1, on an instance: eleven requests of one client, one per second, on
an empty reachable counter store. -/
theorem rateLimit_denies_iff_count_ge_ten_witness :
    (serveAll ⟨true, fun _ => none⟩ ⟨"10.0.0.1:4242", "abc123XY", "curl"⟩
        (0 :: ([1000000000, 2000000000, 3000000000, 4000000000, 5000000000, 6000000000,
          7000000000, 8000000000, 9000000000] ++ [10000000000]))).2
      = List.replicate 10 Verdict.next
        ++ [.answered (.error "Rate limit exceeded" StatusTooManyRequests)] :=
  (rateLimit_denies_iff_count_ge_ten ⟨true, fun _ => none⟩
    ⟨"10.0.0.1:4242", "abc123XY", "curl"⟩ 0).2.2 0 10000000000
    [1000000000, 2000000000, 3000000000, 4000000000, 5000000000, 6000000000,
      7000000000, 8000000000, 9000000000] rfl rfl rfl (by decide)

/-- C2, as stated, fails: an admitted request on a live counter does not
leave the window end unchanged. After a first request at 0 s the key expires
at 60 s; a second request at 50 s moves the expiry to 110 s; so a third
request at 70 s, more than 60 s after the first, finds the key present with
count 2 and makes it 3 instead of starting a fresh count. -/
theorem rateLimit_window_end_not_fixed :
    (serveAll ⟨true, fun _ => none⟩ ⟨"10.0.0.1:4242", "abc123XY", "curl"⟩ [0]).1.data
        "rate:10.0.0.1:4242" = some ⟨"1", some 60000000000⟩ ∧
    (serveAll ⟨true, fun _ => none⟩ ⟨"10.0.0.1:4242", "abc123XY", "curl"⟩
        [0, 50000000000]).1.data "rate:10.0.0.1:4242" = some ⟨"2", some 110000000000⟩ ∧
    (serveAll ⟨true, fun _ => none⟩ ⟨"10.0.0.1:4242", "abc123XY", "curl"⟩
        [0, 50000000000]).1.lookup "rate:10.0.0.1:4242" 70000000000
      = some ⟨"2", some 110000000000⟩ ∧
    (serveAll ⟨true, fun _ => none⟩ ⟨"10.0.0.1:4242", "abc123XY", "curl"⟩
        [0, 50000000000, 70000000000]).1.data "rate:10.0.0.1:4242"
      = some ⟨"3", some 130000000000⟩ := by
  decide

/-- C2, amended: on a reachable counter store an admitted request moves the
counter from absent to count 1 expiring at now + 60 s, and from counting
(count c below 10, expiry e, now before e) to count c + 1 with the expiry
moved to now + 60 s; the key is then present until now + 60 s, and a request
made 60 s or more after that last admitted request finds the key absent and
starts a fresh count of 1. -/
theorem rateLimit_admitted_transition (redisClient : Redis) (r : Request) (now : Nat)
    (hup : redisClient.up = true) :
    (redisClient.lookup ("rate:" ++ r.RemoteAddr) now = none →
      RateLimitMiddleware redisClient r now
        = (redisClient.put ("rate:" ++ r.RemoteAddr) ⟨Itoa 1, some (now + 60000000000)⟩,
            .next)) ∧
    (∀ (c : Int) (e : Nat),
      redisClient.data ("rate:" ++ r.RemoteAddr) = some ⟨Itoa c, some e⟩ →
      now < e → -(2 ^ 63 : Int) ≤ c → c < 10 →
      RateLimitMiddleware redisClient r now
          = (redisClient.put ("rate:" ++ r.RemoteAddr)
              ⟨Itoa (c + 1), some (now + 60000000000)⟩, .next) ∧
        readCount (RateLimitMiddleware redisClient r now).1 ("rate:" ++ r.RemoteAddr) now
          = c + 1) ∧
    (∀ (later : Nat),
      (redisClient.lookup ("rate:" ++ r.RemoteAddr) now = none ∨
        ∃ (c : Int) (e : Nat),
          redisClient.data ("rate:" ++ r.RemoteAddr) = some ⟨Itoa c, some e⟩ ∧
          now < e ∧ -(2 ^ 63 : Int) ≤ c ∧ c < 10) →
      (later < now + 60000000000 →
        ((RateLimitMiddleware redisClient r now).1.lookup
          ("rate:" ++ r.RemoteAddr) later).isSome = true) ∧
      (now + 60000000000 ≤ later →
        (RateLimitMiddleware redisClient r now).1.lookup ("rate:" ++ r.RemoteAddr) later = none ∧
        RateLimitMiddleware (RateLimitMiddleware redisClient r now).1 r later
          = ((RateLimitMiddleware redisClient r now).1.put ("rate:" ++ r.RemoteAddr)
              ⟨Itoa 1, some (later + 60000000000)⟩, .next))) := by
  refine ⟨fun habs => rateLimit_absent redisClient r now hup habs, ?_, ?_⟩
  · intro c e hd hlive hlo hhi
    have hstep := rateLimit_counting redisClient r now e c hup hd hlive hlo hhi
    refine ⟨hstep, ?_⟩
    rw [hstep]
    exact readCount_counting _ _ now (now + 60000000000) (c + 1) hup (put_data_same _ _ _)
      (by omega) (by omega) (by omega)
  · intro later hstate
    have hkey : ∃ v, RateLimitMiddleware redisClient r now
        = (redisClient.put ("rate:" ++ r.RemoteAddr) ⟨v, some (now + 60000000000)⟩, .next) := by
      rcases hstate with habs | ⟨c, e, hd, hlive, hlo, hhi⟩
      · exact ⟨_, rateLimit_absent redisClient r now hup habs⟩
      · exact ⟨_, rateLimit_counting redisClient r now e c hup hd hlive hlo hhi⟩
    obtain ⟨v, hv⟩ := hkey
    rw [hv]
    refine ⟨fun hlt => ?_, fun hge => ?_⟩
    · rw [lookup_put_same _ _ _ _ (by simp [Redis.Entry.live, hlt])]
      rfl
    · have hgone : (redisClient.put ("rate:" ++ r.RemoteAddr)
          ⟨v, some (now + 60000000000)⟩).lookup ("rate:" ++ r.RemoteAddr) later = none := by
        have hnot : ¬ (later < now + 60000000000) := by omega
        simp [Redis.lookup, put_data_same, Redis.Entry.live, hnot]
      exact ⟨hgone, rateLimit_absent _ r later hup hgone⟩

/-- C2 amended, on an instance: the second request of a client, 50 s after
its first, counts 2 and moves the expiry from 60 s to 110 s. -/
theorem rateLimit_admitted_transition_witness :
    RateLimitMiddleware
        ((⟨true, fun _ => none⟩ : Redis).put ("rate:" ++ "10.0.0.1:4242")
          ⟨Itoa 1, some 60000000000⟩)
        ⟨"10.0.0.1:4242", "abc123XY", "curl"⟩ 50000000000
      = ((((⟨true, fun _ => none⟩ : Redis).put ("rate:" ++ "10.0.0.1:4242")
            ⟨Itoa 1, some 60000000000⟩).put ("rate:" ++ "10.0.0.1:4242")
            ⟨Itoa (1 + 1), some (50000000000 + 60000000000)⟩), .next) :=
  ((rateLimit_admitted_transition
    ((⟨true, fun _ => none⟩ : Redis).put ("rate:" ++ "10.0.0.1:4242")
      ⟨Itoa 1, some 60000000000⟩)
    ⟨"10.0.0.1:4242", "abc123XY", "curl"⟩ 50000000000 rfl).2.1 1 60000000000
      (put_data_same _ _ _) (by decide) (by decide) (by decide)).1

/-! ## Claims about the resolver -/

/-- C3: at a cache miss for "abc123XY", present in the store, the handler
writes the destination under "url:abc123XY" with the duration argument
86 400, that is 86 400 ns and not the 86 400 * 10^9 ns of 24 hours; the
client library sends it as one millisecond, so the entry written at instant
0 expires at 1 ms. -/
theorem redirect_cache_write_duration :
    (RedirectURL exampleStore emptyRedis exampleRequest 0).cacheWrites
      = [("url:abc123XY", "https://example.com/page", 86400)] ∧
    (86400 : Duration) ≠ 24 * Hour ∧
    24 * Hour = 86400 * 1000000000 ∧
    (RedirectURL exampleStore emptyRedis exampleRequest 0).redis.data "url:abc123XY"
      = some ⟨"https://example.com/page", some 1000000⟩ := by
  decide

/-- C4: with an unreachable cache and "abc123XY" present in the store, the
handler does not query the store: it redirects (301) to the empty string,
and still issues the click record. -/
theorem redirect_cache_error_skips_store :
    (RedirectURL exampleStore downRedis exampleRequest 0).response
      = .redirect "" StatusMovedPermanently ∧
    (RedirectURL exampleStore downRedis exampleRequest 0).storeQueries = [] ∧
    (RedirectURL exampleStore downRedis exampleRequest 0).cacheWrites = [] ∧
    (RedirectURL exampleStore downRedis exampleRequest 0).clickWrites
      = [⟨"abc123XY", "10.0.0.1:4242", "curl", 0⟩] ∧
    exampleStore.GetURL "abc123XY" = .ok ⟨"abc123XY", "https://example.com/page", none⟩ :=
  ⟨by decide, by decide, by decide, by decide, rfl⟩

/-- The target handed to `http.Redirect`: for every identifier the store
maps to a row with destination d and a reachable cache, it is d, with status
301, when the cache is cold for the identifier, when it holds an entry with
value d, and at any instant after an earlier resolution against the same
store that started from a cold cache. -/
theorem redirect_target_cold_or_warm (db : Queries) (redisClient : Redis) (r : Request)
    (now : Nat) (url : Url)
    (hup : redisClient.up = true) (hstore : db.GetURL r.shortID = .ok url) :
    (redisClient.lookup ("url:" ++ r.shortID) now = none →
      (RedirectURL db redisClient r now).response
        = .redirect url.LongUrl StatusMovedPermanently) ∧
    (∀ e : Entry, redisClient.lookup ("url:" ++ r.shortID) now = some e →
      e.val = url.LongUrl →
      (RedirectURL db redisClient r now).response
        = .redirect url.LongUrl StatusMovedPermanently) ∧
    (∀ later : Nat, redisClient.lookup ("url:" ++ r.shortID) now = none →
      (RedirectURL db (RedirectURL db redisClient r now).redis r later).response
        = .redirect url.LongUrl StatusMovedPermanently) := by
  have hcold : ∀ (rc : Redis) (t : Nat), rc.up = true →
      rc.lookup ("url:" ++ r.shortID) t = none →
      (RedirectURL db rc r t).response = .redirect url.LongUrl StatusMovedPermanently ∧
      (RedirectURL db rc r t).redis
        = rc.put ("url:" ++ r.shortID) ⟨url.LongUrl, some (t + 1000000)⟩ := by
    intro rc t hrc habs
    have hset : Redis.setTTL 86400 = some 1000000 := by decide
    simp [RedirectURL, Redis.Get, StringCmdResult, hrc, habs, hstore, Redis.Set, hset]
  have hwarm : ∀ (rc : Redis) (t : Nat) (e : Entry), rc.up = true →
      rc.lookup ("url:" ++ r.shortID) t = some e → e.val = url.LongUrl →
      (RedirectURL db rc r t).response = .redirect url.LongUrl StatusMovedPermanently := by
    intro rc t e hrc hl hv
    simp [RedirectURL, Redis.Get, StringCmdResult, hrc, hl, hv]
  refine ⟨fun habs => (hcold redisClient now hup habs).1,
    fun e hl hv => hwarm redisClient now e hup hl hv, ?_⟩
  intro later habs
  rw [(hcold redisClient now hup habs).2]
  cases hl : (redisClient.put ("url:" ++ r.shortID)
      ⟨url.LongUrl, some (now + 1000000)⟩).lookup ("url:" ++ r.shortID) later with
  | none =>
    exact (hcold (redisClient.put ("url:" ++ r.shortID) ⟨url.LongUrl, some (now + 1000000)⟩)
      later hup hl).1
  | some e =>
    refine hwarm _ later e hup hl ?_
    simp only [Redis.lookup, put_data_same] at hl
    split at hl
    · simp at hl
      rw [← hl]
    · simp at hl

/-- C6: "abc123XY" mapped to "https://example.com/page", cache cold. The
first GET, at instant 0, makes one store query and answers 301. The second
GET, one second later (well inside 24 hours), finds the cache entry gone and
makes one store query again, for the same 301. -/
theorem redirect_second_get_queries_store :
    (RedirectURL exampleStore emptyRedis exampleRequest 0).storeQueries = ["abc123XY"] ∧
    (RedirectURL exampleStore emptyRedis exampleRequest 0).response
      = .redirect "https://example.com/page" StatusMovedPermanently ∧
    (RedirectURL exampleStore emptyRedis exampleRequest 0).redis.lookup
      "url:abc123XY" 1000000000 = none ∧
    (RedirectURL exampleStore (RedirectURL exampleStore emptyRedis exampleRequest 0).redis
        exampleRequest 1000000000).storeQueries = ["abc123XY"] ∧
    (RedirectURL exampleStore (RedirectURL exampleStore emptyRedis exampleRequest 0).redis
        exampleRequest 1000000000).response
      = .redirect "https://example.com/page" StatusMovedPermanently := by
  decide

/-- C7, as stated, fails: on a cache miss with the store unreachable the
handler answers 404 "URL not found", which is not a 5xx status and is the
very answer it gives for an identifier absent from a reachable store. -/
theorem redirect_store_down_is_404 :
    (RedirectURL downStore emptyRedis exampleRequest 0).response
      = .error "URL not found" 404 ∧
    downStore.GetURL "abc123XY" = .error .unavailable ∧
    (RedirectURL exampleStore emptyRedis ⟨"10.0.0.1:4242", "missing0", "curl"⟩ 0).response
      = (RedirectURL downStore emptyRedis exampleRequest 0).response :=
  ⟨by decide, rfl, by decide⟩

/-- C7, amended: when the cache misses and the store query fails, whatever
the error (store unavailable or no such record), the handler answers 404
"URL not found" after that one query. -/
theorem redirect_store_error_is_404 (db : Queries) (redisClient : Redis) (r : Request)
    (now : Nat) (e : DbErr)
    (hmiss : redisClient.Get ("url:" ++ r.shortID) now = .error .Nil)
    (hstore : db.GetURL r.shortID = .error e) :
    (RedirectURL db redisClient r now).response = .error "URL not found" StatusNotFound ∧
    (RedirectURL db redisClient r now).storeQueries = [r.shortID] := by
  simp [RedirectURL, StringCmdResult, hmiss, hstore]

/-- C7 amended, on an instance: the unreachable store. -/
theorem redirect_store_error_is_404_witness :
    (RedirectURL downStore emptyRedis exampleRequest 0).response
      = .error "URL not found" StatusNotFound ∧
    (RedirectURL downStore emptyRedis exampleRequest 0).storeQueries = ["abc123XY"] :=
  redirect_store_error_is_404 downStore emptyRedis exampleRequest 0 .unavailable rfl rfl

/-- C8: for every identifier for which the cache lookup reports a miss and
the store reports no such record, the handler answers 404 "URL not found"
and stops: no redirect, the cache state is unchanged and no write to it is
issued, and no click record is issued. -/
theorem redirect_not_found (db : Queries) (redisClient : Redis) (r : Request) (now : Nat)
    (hmiss : redisClient.Get ("url:" ++ r.shortID) now = .error .Nil)
    (hstore : db.GetURL r.shortID = .error .ErrNoRows) :
    (RedirectURL db redisClient r now).response = .error "URL not found" StatusNotFound ∧
    (∀ url code, (RedirectURL db redisClient r now).response ≠ .redirect url code) ∧
    (RedirectURL db redisClient r now).redis = redisClient ∧
    (RedirectURL db redisClient r now).cacheWrites = [] ∧
    (RedirectURL db redisClient r now).clickWrites = [] := by
  simp [RedirectURL, StringCmdResult, hmiss, hstore]

/-- C8, on an instance: an identifier in neither the cache nor the store. -/
theorem redirect_not_found_witness :
    (RedirectURL exampleStore emptyRedis ⟨"10.0.0.1:4242", "missing0", "curl"⟩ 0).response
      = .error "URL not found" StatusNotFound :=
  (redirect_not_found exampleStore emptyRedis ⟨"10.0.0.1:4242", "missing0", "curl"⟩ 0
    rfl rfl).1

/-! ## Claims about the identifier generator -/

theorem charsetIndex_lt (u : UUID) (i : Nat) : charsetIndex u i < charset.data.length := by
  unfold charsetIndex
  exact Nat.mod_lt _ (by decide)

theorem shortIDChar_some (u : UUID) (i : Nat) :
    ∃ c, shortIDChar u i = some c ∧ c ∈ charset.data := by
  refine ⟨charset.data.get ⟨charsetIndex u i, charsetIndex_lt u i⟩, ?_, List.get_mem _ _ _⟩
  unfold shortIDChar
  exact List.getElem?_eq_getElem (charsetIndex_lt u i)

/-- C9: whatever sixteen bytes the random source gives, generateShortID
returns (no index leaves the charset) a string of exactly 8 characters, each
a member of the charset; the charset has 62 symbols, all of them digits or
ASCII letters. -/
theorem generateShortID_shape (raw : Fin 16 → Fin 256) :
    (∃ s : String, generateShortID raw = some s ∧ s.length = 8 ∧
      ∀ c ∈ s.data, c ∈ charset.data) ∧
    charset.length = 62 ∧
    (∀ c ∈ charset.data, c.isDigit = true ∨ c.isLower = true ∨ c.isUpper = true) := by
  refine ⟨?_, by decide, by decide⟩
  obtain ⟨c0, h0, m0⟩ := shortIDChar_some (uuidNew raw) 0
  obtain ⟨c1, h1, m1⟩ := shortIDChar_some (uuidNew raw) 1
  obtain ⟨c2, h2, m2⟩ := shortIDChar_some (uuidNew raw) 2
  obtain ⟨c3, h3, m3⟩ := shortIDChar_some (uuidNew raw) 3
  obtain ⟨c4, h4, m4⟩ := shortIDChar_some (uuidNew raw) 4
  obtain ⟨c5, h5, m5⟩ := shortIDChar_some (uuidNew raw) 5
  obtain ⟨c6, h6, m6⟩ := shortIDChar_some (uuidNew raw) 6
  obtain ⟨c7, h7, m7⟩ := shortIDChar_some (uuidNew raw) 7
  refine ⟨String.mk [c0, c1, c2, c3, c4, c5, c6, c7], ?_, rfl, ?_⟩
  · have hr : List.range idLength = [0, 1, 2, 3, 4, 5, 6, 7] := by decide
    unfold generateShortID generateShortIDOf
    rw [hr]
    simp [fillResult, h0, h1, h2, h3, h4, h5, h6, h7]
  · intro c hc
    simp at hc
    rcases hc with h | h | h | h | h | h | h | h <;> subst h <;> assumption

set_option maxRecDepth 100000 in
/-- C10: the positions are not uniform over the 62 symbols. At position 0,
five of the 256 values of the byte give symbol 0 of the charset and four
give symbol 8; at position 6, whose byte carries the version nibble of the
UUID, no value gives symbol 0 and sixteen give symbol 2. -/
theorem generateShortID_not_uniform :
    symbolCount 0 0 = 5 ∧ symbolCount 0 8 = 4 ∧
    symbolCount 6 0 = 0 ∧ symbolCount 6 2 = 16 ∧
    charset.data.Nodup := by
  decide

/-! ## Claims about the click write -/

/-- C13: whatever `db.LogClick` does (succeed or fail), the handler leaves
the same answer, the same cache state and the same store queries; and every
run that answers with a redirect answers 301 and issues exactly one click
write, attempted once whatever its outcome. -/
theorem redirect_ignores_click_outcome (db : Queries)
    (logClick : LogClickParams → Except DbErr Unit)
    (redisClient : Redis) (r : Request) (now : Nat) :
    (RedirectURL ⟨db.GetURL, logClick⟩ redisClient r now).response
      = (RedirectURL db redisClient r now).response ∧
    (RedirectURL ⟨db.GetURL, logClick⟩ redisClient r now).redis
      = (RedirectURL db redisClient r now).redis ∧
    (RedirectURL ⟨db.GetURL, logClick⟩ redisClient r now).storeQueries
      = (RedirectURL db redisClient r now).storeQueries ∧
    (∀ url code, (RedirectURL db redisClient r now).response = .redirect url code →
      code = StatusMovedPermanently ∧
      (RedirectURL db redisClient r now).clickWrites
        = [⟨r.shortID, r.RemoteAddr, r.UserAgent, now⟩] ∧
      (clickOutcomes ⟨db.GetURL, logClick⟩
        (RedirectURL ⟨db.GetURL, logClick⟩ redisClient r now)).length = 1) := by
  unfold clickOutcomes RedirectURL
  by_cases herr : (StringCmdResult (redisClient.Get ("url:" ++ r.shortID) now)).2
      = some RedisErr.Nil
  · cases hdb : db.GetURL r.shortID with
    | error e => simp [herr, hdb]
    | ok url =>
      simp only [herr, hdb, if_true]
      refine ⟨by simp, by simp, by simp, ?_⟩
      · intro u code h
        simp only [Response.redirect.injEq] at h
        simp [h.2.symm]
  · simp only [herr, if_false]
    refine ⟨by simp, by simp, by simp, ?_⟩
    intro u code h
    simp only [Response.redirect.injEq] at h
    simp [h.2.symm]

/-- C13, on an instance: the same resolution with a click write that
succeeds and with one that fails. -/
theorem redirect_ignores_click_outcome_witness :
    (RedirectURL ⟨exampleStore.GetURL, fun _ => .error .unavailable⟩ emptyRedis
        exampleRequest 0).response
      = (RedirectURL exampleStore emptyRedis exampleRequest 0).response ∧
    (RedirectURL exampleStore emptyRedis exampleRequest 0).clickWrites
      = [⟨"abc123XY", "10.0.0.1:4242", "curl", 0⟩] ∧
    (clickOutcomes ⟨exampleStore.GetURL, fun _ => .error .unavailable⟩
      (RedirectURL ⟨exampleStore.GetURL, fun _ => .error .unavailable⟩ emptyRedis
        exampleRequest 0)).length = 1 :=
  ⟨(redirect_ignores_click_outcome exampleStore (fun _ => .error .unavailable) emptyRedis
      exampleRequest 0).1,
    ((redirect_ignores_click_outcome exampleStore (fun _ => .error .unavailable) emptyRedis
      exampleRequest 0).2.2.2 "https://example.com/page" 301 (by decide)).2.1,
    ((redirect_ignores_click_outcome exampleStore (fun _ => .error .unavailable) emptyRedis
      exampleRequest 0).2.2.2 "https://example.com/page" 301 (by decide)).2.2⟩

/-! ## Claims about a failing read of the counter -/

theorem ParseInt_error_value (s : String) :
    ((ParseInt s).2 = some .syntaxError → (ParseInt s).1 = 0) ∧
    ((ParseInt s).2 = some .rangeError →
      (ParseInt s).1 = 2 ^ 63 - 1 ∨ (ParseInt s).1 = -(2 ^ 63 : Int)) := by
  unfold ParseInt
  split
  · simp
  · rename_i c cs _
    simp only
    split
    · simp
    · by_cases hneg : c = '-' <;> simp [hneg]
    · rename_i un _
      by_cases hneg : c = '-'
      · by_cases h1 : 9223372036854775808 < un <;> simp [hneg, h1]
      · by_cases h1 : 9223372036854775808 ≤ un <;> simp [hneg, h1]

/-- On a range error the value is the bound on the side of the sign: the
smallest int64 for text with a leading minus, the largest otherwise. -/
theorem ParseInt_range_value (s : String) (h : (ParseInt s).2 = some .rangeError) :
    (s.data.head? = some '-' → (ParseInt s).1 = -(2 ^ 63 : Int)) ∧
    (s.data.head? ≠ some '-' → (ParseInt s).1 = 2 ^ 63 - 1) := by
  unfold ParseInt at h ⊢
  split at h
  · simp at h
  · rename_i c cs hcs
    simp only at h ⊢
    rw [hcs]
    simp only [List.head?_cons, Option.some.injEq, ne_eq]
    split at h
    · simp at h
    · by_cases hneg : c = '-' <;> simp [hneg]
    · rename_i un _
      by_cases hneg : c = '-'
      · by_cases h1 : 9223372036854775808 < un
        · simp [hneg, h1]
        · simp [hneg, h1] at h
      · by_cases h1 : 9223372036854775808 ≤ un
        · simp [hneg, h1]
        · simp [hneg, h1] at h

theorem readCount_of_entry (redisClient : Redis) (key : String) (now : Nat) (e : Entry)
    (hup : redisClient.up = true) (hl : redisClient.lookup key now = some e) :
    readCount redisClient key now = (Atoi e.val).1 := by
  simp [readCount, Redis.Get, Redis.StringCmdInt, hup, hl]

theorem readCount_down (redisClient : Redis) (key : String) (now : Nat)
    (hup : redisClient.up = false) :
    readCount redisClient key now = 0 := by
  simp [readCount, Redis.Get, Redis.StringCmdInt, hup]

theorem rateLimit_verdict_of_count (redisClient : Redis) (r : Request) (now : Nat) :
    (readCount redisClient ("rate:" ++ r.RemoteAddr) now < 10 →
      (RateLimitMiddleware redisClient r now).2 = .next) ∧
    (10 ≤ readCount redisClient ("rate:" ++ r.RemoteAddr) now →
      (RateLimitMiddleware redisClient r now).2
        = .answered (.error "Rate limit exceeded" StatusTooManyRequests)) := by
  unfold RateLimitMiddleware
  constructor
  · intro h
    have hnot : ¬ (10 ≤ readCount redisClient ("rate:" ++ r.RemoteAddr) now) := by omega
    simp [hnot]
  · intro h
    simp [h]

/-- C17, as stated, fails: with the counter holding the digits
"99999999999999999999" the read fails (Atoi reports a range error), yet the
count taken is not 0 but the largest int64, and the request is refused with
429. -/
theorem rateLimit_range_error_denied :
    Atoi "99999999999999999999" = (9223372036854775807, some .rangeError) ∧
    Redis.StringCmdInt
      ((⟨true, fun k => if k = "rate:10.0.0.1:4242"
          then some ⟨"99999999999999999999", none⟩ else none⟩ : Redis).Get
        "rate:10.0.0.1:4242" 0) = (9223372036854775807, false) ∧
    (RateLimitMiddleware
      ⟨true, fun k => if k = "rate:10.0.0.1:4242"
        then some ⟨"99999999999999999999", none⟩ else none⟩
      exampleRequest 0).2
      = .answered (.error "Rate limit exceeded" StatusTooManyRequests) := by
  decide

/-- C17, amended: when the counter store is unreachable, and when the stored
value is text that Atoi rejects with a syntax error, the middleware takes
the count to be 0 and admits the request, whatever the state of the counter;
when Atoi rejects the stored value with a range error the count taken is the
nearest int64 bound: the largest int64 for a value too large (text without a
leading minus), and the request is refused with 429; the smallest int64 for
a value too small (text with a leading minus), and the request is
admitted. -/
theorem rateLimit_read_failure (redisClient : Redis) (r : Request) (now : Nat) :
    (redisClient.up = false →
      readCount redisClient ("rate:" ++ r.RemoteAddr) now = 0 ∧
      (RateLimitMiddleware redisClient r now).2 = .next) ∧
    (∀ e : Entry, redisClient.up = true →
      redisClient.lookup ("rate:" ++ r.RemoteAddr) now = some e →
      (Atoi e.val).2 = some .syntaxError →
      readCount redisClient ("rate:" ++ r.RemoteAddr) now = 0 ∧
      (RateLimitMiddleware redisClient r now).2 = .next) ∧
    (∀ e : Entry, redisClient.up = true →
      redisClient.lookup ("rate:" ++ r.RemoteAddr) now = some e →
      (Atoi e.val).2 = some .rangeError →
      (e.val.data.head? ≠ some '-' →
        readCount redisClient ("rate:" ++ r.RemoteAddr) now = 2 ^ 63 - 1 ∧
        (RateLimitMiddleware redisClient r now).2
          = .answered (.error "Rate limit exceeded" StatusTooManyRequests)) ∧
      (e.val.data.head? = some '-' →
        readCount redisClient ("rate:" ++ r.RemoteAddr) now = -(2 ^ 63 : Int) ∧
        (RateLimitMiddleware redisClient r now).2 = .next)) := by
  have hv := rateLimit_verdict_of_count redisClient r now
  refine ⟨?_, ?_, ?_⟩
  · intro hup
    have hc := readCount_down redisClient ("rate:" ++ r.RemoteAddr) now hup
    exact ⟨hc, hv.1 (by omega)⟩
  · intro e hup hl hsyn
    have hc := readCount_of_entry redisClient _ now e hup hl
    have h0 := (ParseInt_error_value e.val).1 hsyn
    have hc0 : readCount redisClient ("rate:" ++ r.RemoteAddr) now = 0 := by
      rw [hc]
      exact h0
    exact ⟨hc0, hv.1 (by omega)⟩
  · intro e hup hl hrange
    have hc := readCount_of_entry redisClient _ now e hup hl
    have hval := ParseInt_range_value e.val hrange
    refine ⟨fun hpos => ?_, fun hneg => ?_⟩
    · have hc1 : readCount redisClient ("rate:" ++ r.RemoteAddr) now = 2 ^ 63 - 1 := by
        rw [hc]
        exact hval.2 hpos
      exact ⟨hc1, hv.2 (by omega)⟩
    · have hc1 : readCount redisClient ("rate:" ++ r.RemoteAddr) now = -(2 ^ 63 : Int) := by
        rw [hc]
        exact hval.1 hneg
      exact ⟨hc1, hv.1 (by omega)⟩

/-- C17 amended, on instances: a counter holding "ten" and an unreachable
counter store both let the request through; a counter holding twenty nines
is read as the largest int64 and the request refused; a counter holding
minus twenty nines is read as the smallest int64 and the request admitted. -/
theorem rateLimit_read_failure_witness :
    (RateLimitMiddleware
      ⟨true, fun k => if k = "rate:10.0.0.1:4242" then some ⟨"ten", none⟩ else none⟩
      exampleRequest 0).2 = .next ∧
    (RateLimitMiddleware downRedis exampleRequest 0).2 = .next ∧
    (readCount
        ⟨true, fun k => if k = "rate:10.0.0.1:4242"
          then some ⟨"99999999999999999999", none⟩ else none⟩
        ("rate:" ++ exampleRequest.RemoteAddr) 0 = 2 ^ 63 - 1 ∧
      (RateLimitMiddleware
        ⟨true, fun k => if k = "rate:10.0.0.1:4242"
          then some ⟨"99999999999999999999", none⟩ else none⟩
        exampleRequest 0).2
        = .answered (.error "Rate limit exceeded" StatusTooManyRequests)) ∧
    (readCount
        ⟨true, fun k => if k = "rate:10.0.0.1:4242"
          then some ⟨"-99999999999999999999", none⟩ else none⟩
        ("rate:" ++ exampleRequest.RemoteAddr) 0 = -(2 ^ 63 : Int) ∧
      (RateLimitMiddleware
        ⟨true, fun k => if k = "rate:10.0.0.1:4242"
          then some ⟨"-99999999999999999999", none⟩ else none⟩
        exampleRequest 0).2 = .next) :=
  ⟨((rateLimit_read_failure
      ⟨true, fun k => if k = "rate:10.0.0.1:4242" then some ⟨"ten", none⟩ else none⟩
      exampleRequest 0).2.1 ⟨"ten", none⟩ rfl rfl (by decide)).2,
    ((rateLimit_read_failure downRedis exampleRequest 0).1 rfl).2,
    ((rateLimit_read_failure
      ⟨true, fun k => if k = "rate:10.0.0.1:4242"
        then some ⟨"99999999999999999999", none⟩ else none⟩
      exampleRequest 0).2.2 ⟨"99999999999999999999", none⟩ rfl rfl (by decide)).1 (by decide),
    ((rateLimit_read_failure
      ⟨true, fun k => if k = "rate:10.0.0.1:4242"
        then some ⟨"-99999999999999999999", none⟩ else none⟩
      exampleRequest 0).2.2 ⟨"-99999999999999999999", none⟩ rfl rfl (by decide)).2 (by decide)⟩

/-! ## Claims about ShortenURL -/

theorem generateShortID_some (raw : Fin 16 → Fin 256) :
    ∃ id, generateShortID raw = some id := by
  obtain ⟨c0, h0, _⟩ := shortIDChar_some (uuidNew raw) 0
  obtain ⟨c1, h1, _⟩ := shortIDChar_some (uuidNew raw) 1
  obtain ⟨c2, h2, _⟩ := shortIDChar_some (uuidNew raw) 2
  obtain ⟨c3, h3, _⟩ := shortIDChar_some (uuidNew raw) 3
  obtain ⟨c4, h4, _⟩ := shortIDChar_some (uuidNew raw) 4
  obtain ⟨c5, h5, _⟩ := shortIDChar_some (uuidNew raw) 5
  obtain ⟨c6, h6, _⟩ := shortIDChar_some (uuidNew raw) 6
  obtain ⟨c7, h7, _⟩ := shortIDChar_some (uuidNew raw) 7
  refine ⟨String.mk [c0, c1, c2, c3, c4, c5, c6, c7], ?_⟩
  have hr : List.range idLength = [0, 1, 2, 3, 4, 5, 6, 7] := by decide
  unfold generateShortID generateShortIDOf
  rw [hr]
  simp [fillResult, h0, h1, h2, h3, h4, h5, h6, h7]

/-- C11, as stated, fails: with a store in which the first candidate
"00000020" is taken, ShortenURL calls generateShortID once, attempts the
insert once and answers 500 "Failed to create URL", although the next
candidate the generator would give, "11111131", would be accepted. -/
theorem shorten_duplicate_not_retried :
    ShortenURL exampleParse exampleCreateURL exampleRand
        ⟨some ⟨"https://example.com/page", "", none, none⟩, none⟩ 0
      = ⟨.error "Failed to create URL" 500, [some "00000020"],
          [⟨"00000020", "https://example.com/page", none, 0, none, none⟩]⟩ ∧
    exampleCreateURL ⟨"00000020", "https://example.com/page", none, 0, none, none⟩
      = .error .duplicate ∧
    generateShortID (exampleRand 1) = some "11111131" ∧
    exampleCreateURL ⟨"11111131", "https://example.com/page", none, 0, none, none⟩
      = .ok ⟨⟨"11111131", "https://example.com/page", none⟩, 0, none, none⟩ :=
  ⟨by decide, rfl, by decide, rfl⟩

/-- C11, amended: when the store rejects the insert of a generated
identifier, as a duplicate or for any other reason, ShortenURL surfaces that
single attempt to the caller as 500 "Failed to create URL": generateShortID
has been called once and the insert attempted once, with no retry. -/
theorem shorten_insert_failure_surfaced (Parse : String → Option (List Nat))
    (CreateURL : CreateURLParams → Except InsertErr UrlRow)
    (rand : Nat → Fin 16 → Fin 256) (r : ShortenRequest) (now : Nat)
    (input : ShortenInput) (id : String) (e : InsertErr)
    (hbody : r.body = some input) (hcustom : input.CustomID = "")
    (hgen : generateShortID (rand 0) = some id)
    (hrej : CreateURL ⟨id, input.LongURL, none, now, timeToNullable input.ExpiresAt,
      intToNullable input.ClickLimit⟩ = .error e) :
    ShortenURL Parse CreateURL rand r now
      = ⟨.error "Failed to create URL" 500, [some id],
          [⟨id, input.LongURL, none, now, timeToNullable input.ExpiresAt,
            intToNullable input.ClickLimit⟩]⟩ := by
  simp [ShortenURL, hbody, hcustom, hgen, hrej, UUIDToNullable]

/-- C11 amended, on an instance: the store in which "00000020" is taken. -/
theorem shorten_insert_failure_surfaced_witness :
    ShortenURL exampleParse exampleCreateURL exampleRand
        ⟨some ⟨"https://example.com/page", "", none, none⟩, none⟩ 0
      = ⟨.error "Failed to create URL" 500, [some "00000020"],
          [⟨"00000020", "https://example.com/page", none, 0, none, none⟩]⟩ :=
  shorten_insert_failure_surfaced exampleParse exampleCreateURL exampleRand
    ⟨some ⟨"https://example.com/page", "", none, none⟩, none⟩ 0
    ⟨"https://example.com/page", "", none, none⟩ "00000020" .duplicate rfl rfl
    (by decide) rfl

/-- C12: for every request whose body decodes, the identifier passed to the
insert is decided by custom_id alone. With a non-empty custom_id the
generator is not called and every insert attempted carries custom_id
verbatim; without a caller reference in the request the answer is 401 and no
insert is made, and with one that parses exactly one insert is made. With an
empty custom_id the generator is called once and the single insert carries
its result. -/
theorem shorten_identifier_choice (Parse : String → Option (List Nat))
    (CreateURL : CreateURLParams → Except InsertErr UrlRow)
    (rand : Nat → Fin 16 → Fin 256) (r : ShortenRequest) (now : Nat)
    (input : ShortenInput) (hbody : r.body = some input) :
    (input.CustomID ≠ "" →
      (ShortenURL Parse CreateURL rand r now).generated = [] ∧
      (∀ p ∈ (ShortenURL Parse CreateURL rand r now).inserts, p.ShortID = input.CustomID) ∧
      (r.user_id = none →
        ShortenURL Parse CreateURL rand r now
          = ⟨.error "Authentication required for custom URLs" 401, [], []⟩) ∧
      (∀ s uid, r.user_id = some s → Parse s = some uid →
        (ShortenURL Parse CreateURL rand r now).inserts
          = [⟨input.CustomID, input.LongURL, some uid, now, timeToNullable input.ExpiresAt,
              intToNullable input.ClickLimit⟩])) ∧
    (input.CustomID = "" →
      ∃ id, generateShortID (rand 0) = some id ∧
        (ShortenURL Parse CreateURL rand r now).generated = [some id] ∧
        (ShortenURL Parse CreateURL rand r now).inserts
          = [⟨id, input.LongURL, none, now, timeToNullable input.ExpiresAt,
              intToNullable input.ClickLimit⟩]) := by
  constructor
  · intro hc
    refine ⟨?_, ?_, ?_, ?_⟩
    · unfold ShortenURL
      cases hu : r.user_id with
      | none => simp [hbody, hc]
      | some s =>
        cases hp : Parse s with
        | none => simp [hbody, hc, hp]
        | some uid =>
          cases hcr : CreateURL ⟨input.CustomID, input.LongURL, UUIDToNullable (some uid), now,
            timeToNullable input.ExpiresAt, intToNullable input.ClickLimit⟩ <;>
            simp [hbody, hc, hp, hcr]
    · unfold ShortenURL
      cases hu : r.user_id with
      | none => simp [hbody, hc]
      | some s =>
        cases hp : Parse s with
        | none => simp [hbody, hc, hp]
        | some uid =>
          cases hcr : CreateURL ⟨input.CustomID, input.LongURL, UUIDToNullable (some uid), now,
            timeToNullable input.ExpiresAt, intToNullable input.ClickLimit⟩ <;>
            simp [hbody, hc, hp, hcr]
    · intro hnone
      simp [ShortenURL, hbody, hc, hnone]
    · intro s uid hs hp
      unfold ShortenURL
      cases hcr : CreateURL ⟨input.CustomID, input.LongURL, UUIDToNullable (some uid), now,
        timeToNullable input.ExpiresAt, intToNullable input.ClickLimit⟩ <;>
        simp [hbody, hc, hs, hp, hcr] <;> rfl
  · intro hc
    obtain ⟨id, hid⟩ := generateShortID_some (rand 0)
    refine ⟨id, hid, ?_, ?_⟩
    · unfold ShortenURL
      cases hcr : CreateURL ⟨id, input.LongURL, UUIDToNullable none, now,
        timeToNullable input.ExpiresAt, intToNullable input.ClickLimit⟩ <;>
        simp [hbody, hc, hid, hcr]
    · unfold ShortenURL
      cases hcr : CreateURL ⟨id, input.LongURL, UUIDToNullable none, now,
        timeToNullable input.ExpiresAt, intToNullable input.ClickLimit⟩ <;>
        simp [hbody, hc, hid, hcr] <;> rfl

/-- C12, on an instance: the custom identifier "my-custom-url" without a
caller reference (401, no insert) and with the caller 1111.. (stored
verbatim, generator not called). -/
theorem shorten_identifier_choice_witness :
    ShortenURL exampleParse exampleCreateURL exampleRand
        ⟨some ⟨"https://example.com/page", "my-custom-url", none, none⟩, none⟩ 0
      = ⟨.error "Authentication required for custom URLs" 401, [], []⟩ ∧
    (ShortenURL exampleParse exampleCreateURL exampleRand
        ⟨some ⟨"https://example.com/page", "my-custom-url", none, none⟩,
          some "11111111-1111-1111-1111-111111111111"⟩ 0).inserts
      = [⟨"my-custom-url", "https://example.com/page", some (List.replicate 16 17), 0,
          timeToNullable none, intToNullable none⟩] :=
  ⟨((shorten_identifier_choice exampleParse exampleCreateURL exampleRand
      ⟨some ⟨"https://example.com/page", "my-custom-url", none, none⟩, none⟩ 0
      ⟨"https://example.com/page", "my-custom-url", none, none⟩ rfl).1 (by decide)).2.2.1 rfl,
    ((shorten_identifier_choice exampleParse exampleCreateURL exampleRand
      ⟨some ⟨"https://example.com/page", "my-custom-url", none, none⟩,
        some "11111111-1111-1111-1111-111111111111"⟩ 0
      ⟨"https://example.com/page", "my-custom-url", none, none⟩ rfl).1 (by decide)).2.2.2
      "11111111-1111-1111-1111-111111111111" (List.replicate 16 17) rfl rfl⟩

/-! ## Claims about GetAnalytics -/

/-- C16: "abc123XY" has no owner in the store; the caller is authenticated
as user 1111... GetAnalytics does not answer 401: it returns the counts per
location of the clicks of that URL. UpdateURL, on the same URL and caller,
answers 401 "Unauthorized"; and GetAnalytics itself answers 401 when the URL
belongs to another user. -/
theorem analytics_served_for_ownerless_url :
    exampleStore.GetURL "abc123XY" = .ok ⟨"abc123XY", "https://example.com/page", none⟩ ∧
    GetAnalytics exampleParse exampleStore.GetURL
        (fun _ => .ok [⟨"10.0.0.1"⟩, ⟨"10.0.0.2"⟩, ⟨""⟩])
        (fun _ => "Accra, Ghana") "abc123XY" (some "11111111-1111-1111-1111-111111111111")
      = .analytics [("Accra, Ghana", 2), ("unknown", 1)] ∧
    (UpdateURL exampleParse listQueries
        [⟨⟨"abc123XY", "https://example.com/page", none⟩, 0, none, none⟩]
        "abc123XY" (some "11111111-1111-1111-1111-111111111111")
        (some ⟨some "https://example.org", none, none⟩)).2
      = .error "Unauthorized" 401 ∧
    GetAnalytics exampleParse
        (fun _ => .ok ⟨"abc123XY", "https://example.com/page", some (List.replicate 16 34)⟩)
        (fun _ => .ok [⟨"10.0.0.1"⟩])
        (fun _ => "Accra, Ghana") "abc123XY" (some "11111111-1111-1111-1111-111111111111")
      = .error "Unauthorized or URL not found" 401 :=
  ⟨rfl, by decide, by decide, by decide⟩

/-! ## Claims about updates, deletions and the cache -/

/-- A cache hit is answered from the cache alone: whatever the store holds,
the handler redirects to the cached value and makes no store query. -/
theorem redirect_hit (db : Queries) (redisClient : Redis) (r : Request) (now : Nat) (e : Entry)
    (hup : redisClient.up = true)
    (hl : redisClient.lookup ("url:" ++ r.shortID) now = some e) :
    (RedirectURL db redisClient r now).response = .redirect e.val StatusMovedPermanently ∧
    (RedirectURL db redisClient r now).storeQueries = [] ∧
    (RedirectURL db redisClient r now).redis = redisClient := by
  simp [RedirectURL, Redis.Get, StringCmdResult, hup, hl]

/-- C14: the routes of UpdateURL and DeleteURL leave the Redis state as it
was, whatever they do to the store; so an entry of the cache that is live at
instant now is still there after an update or a deletion, and the resolver
keeps answering 301 to the cached (old) destination, without a store query,
for as long as that entry is live. -/
theorem update_delete_keep_cache {σ : Type} (Parse : String → Option (List Nat))
    (q : UrlQueries σ) (w : World σ) (shortID : String) (user_id : Option String)
    (body : Option UpdateInput) (r : Request) (now : Nat) (e : Entry)
    (hup : w.redis.up = true)
    (hl : w.redis.lookup ("url:" ++ r.shortID) now = some e) :
    (routeUpdate Parse q w shortID user_id body).1.redis = w.redis ∧
    (routeDelete Parse q w shortID user_id).1.redis = w.redis ∧
    (routeUpdate Parse q w shortID user_id body).1.redis.lookup ("url:" ++ r.shortID) now
      = some e ∧
    (routeDelete Parse q w shortID user_id).1.redis.lookup ("url:" ++ r.shortID) now
      = some e ∧
    (routeRedirect q (routeUpdate Parse q w shortID user_id body).1 r now).response
      = .redirect e.val StatusMovedPermanently ∧
    (routeRedirect q (routeUpdate Parse q w shortID user_id body).1 r now).storeQueries = [] ∧
    (routeRedirect q (routeDelete Parse q w shortID user_id).1 r now).response
      = .redirect e.val StatusMovedPermanently ∧
    (routeRedirect q (routeDelete Parse q w shortID user_id).1 r now).storeQueries = [] := by
  have hu := redirect_hit (queriesAt q (UpdateURL Parse q w.store shortID user_id body).1)
    w.redis r now e hup hl
  have hd := redirect_hit (queriesAt q (DeleteURL Parse q w.store shortID user_id).1)
    w.redis r now e hup hl
  exact ⟨rfl, rfl, hl, hl, hu.1, hu.2.1, hd.1, hd.2.1⟩

/-- C14, on an instance: the owner deletes "abc123XY", and the owner moves
it to "https://example.org"; the store no longer maps it to the old
destination, yet half a millisecond after the cache entry was written the
resolver still answers 301 to "https://example.com/page". -/
theorem update_delete_keep_cache_witness :
    listQueries.GetURL
        (routeDelete exampleParse listQueries exampleWorld "abc123XY"
          (some "11111111-1111-1111-1111-111111111111")).1.store "abc123XY"
      = .error .ErrNoRows ∧
    listQueries.GetURL
        (routeUpdate exampleParse listQueries exampleWorld "abc123XY"
          (some "11111111-1111-1111-1111-111111111111")
          (some ⟨some "https://example.org", none, none⟩)).1.store "abc123XY"
      = .ok ⟨⟨"abc123XY", "https://example.org", some (List.replicate 16 17)⟩, 0, none, none⟩ ∧
    (routeRedirect listQueries
        (routeUpdate exampleParse listQueries exampleWorld "abc123XY"
          (some "11111111-1111-1111-1111-111111111111")
          (some ⟨some "https://example.org", none, none⟩)).1 exampleRequest 500000).response
      = .redirect "https://example.com/page" StatusMovedPermanently ∧
    (routeRedirect listQueries
        (routeDelete exampleParse listQueries exampleWorld "abc123XY"
          (some "11111111-1111-1111-1111-111111111111")).1 exampleRequest 500000).response
      = .redirect "https://example.com/page" StatusMovedPermanently :=
  ⟨rfl, rfl,
    (update_delete_keep_cache exampleParse listQueries exampleWorld "abc123XY"
      (some "11111111-1111-1111-1111-111111111111")
      (some ⟨some "https://example.org", none, none⟩) exampleRequest 500000
      ⟨"https://example.com/page", some 1000000⟩ rfl rfl).2.2.2.2.1,
    (update_delete_keep_cache exampleParse listQueries exampleWorld "abc123XY"
      (some "11111111-1111-1111-1111-111111111111")
      (some ⟨some "https://example.org", none, none⟩) exampleRequest 500000
      ⟨"https://example.com/page", some 1000000⟩ rfl rfl).2.2.2.2.2.2.1⟩

/-! ## Claims about concurrent requests -/

/-- The three steps of one request, run in a row, are the middleware. -/
theorem stepRequest_thrice (redisClient : Redis) (r : Request) (now : Nat) :
    stepRequest
        (stepRequest (stepRequest redisClient r now .idle).1 r now
          (stepRequest redisClient r now .idle).2).1 r now
        (stepRequest (stepRequest redisClient r now .idle).1 r now
          (stepRequest redisClient r now .idle).2).2
      = ((RateLimitMiddleware redisClient r now).1,
          .finished (RateLimitMiddleware redisClient r now).2) := by
  by_cases h : 10 ≤ readCount redisClient ("rate:" ++ r.RemoteAddr) now
  · simp [stepRequest, RateLimitMiddleware, h]
  · simp [stepRequest, RateLimitMiddleware, h]

/-- A step of the request that stands right after `pre` in the list. -/
theorem stepAt_middle (r : Request) (now : Nat) (rd : Redis) (pre post : List Phase)
    (p : Phase) :
    stepAt r now ⟨rd, pre ++ p :: post⟩ pre.length
      = ⟨(stepRequest rd r now p).1, pre ++ (stepRequest rd r now p).2 :: post⟩ := by
  have hget : (pre ++ p :: post)[pre.length]? = some p := by
    rw [List.getElem?_append_right (le_refl _)]
    simp
  have hset : ∀ q : Phase, (pre ++ p :: post).set pre.length q = pre ++ q :: post := by
    intro q
    induction pre with
    | nil => rfl
    | cons a as ih => simp [ih]
  unfold stepAt
  simp only [hget, hset]

theorem runSchedule_append (r : Request) (now : Nat) (s : Sys) (a b : List Nat) :
    runSchedule r now s (a ++ b) = runSchedule r now (runSchedule r now s a) b := by
  simp [runSchedule, List.foldl_append]

/-- Without interleaving the scheduler does what `serveAll` does. -/
theorem runSchedule_seq (r : Request) (now : Nat) (n : Nat) :
    ∀ (pre : List Phase) (rd : Redis),
      runSchedule r now ⟨rd, pre ++ List.replicate n Phase.idle⟩ (seqSchedule pre.length n)
        = ⟨(serveAll rd r (List.replicate n now)).1,
            pre ++ (serveAll rd r (List.replicate n now)).2.map Phase.finished⟩ := by
  induction n with
  | zero =>
    intro pre rd
    simp [seqSchedule, runSchedule, serveAll]
  | succ n ih =>
    intro pre rd
    have h3 := stepRequest_thrice rd r now
    have hih := ih (pre ++ [Phase.finished (RateLimitMiddleware rd r now).2])
      (RateLimitMiddleware rd r now).1
    simp only [List.length_append, List.length_singleton, List.append_assoc,
      List.singleton_append] at hih
    simp only [seqSchedule, runSchedule, List.foldl_cons, List.replicate_succ, stepAt_middle,
      h3, serveAll, List.map_cons]
    exact hih

/-- Once the counter holds 10, every request before its expiry is refused
and nothing changes. -/
theorem serveAll_full (r : Request) (redisClient : Redis) (e : Nat)
    (hup : redisClient.up = true)
    (hd : redisClient.data ("rate:" ++ r.RemoteAddr) = some ⟨Itoa 10, some e⟩)
    (ts : List Nat) (hts : ∀ t ∈ ts, t < e) :
    serveAll redisClient r ts
      = (redisClient, List.replicate ts.length
          (Verdict.answered (.error "Rate limit exceeded" StatusTooManyRequests))) := by
  induction ts with
  | nil => rfl
  | cons t ts ih =>
    have hstep := rateLimit_full redisClient r t e 10 hup hd (hts t (by simp))
      (by norm_num) (by norm_num)
    have hrest := ih (fun u hu => hts u (by simp [hu]))
    simp only [serveAll, hstep, hrest, List.length_cons, List.replicate_succ]

/-- Ten or more requests at one instant on an absent key, served one after
the other: the first ten are admitted, the others refused. -/
theorem serveAll_same_instant (redisClient : Redis) (r : Request) (now m : Nat)
    (hup : redisClient.up = true)
    (habs : redisClient.lookup ("rate:" ++ r.RemoteAddr) now = none) :
    (serveAll redisClient r (List.replicate (10 + m) now)).2
      = List.replicate 10 Verdict.next ++ List.replicate m
          (Verdict.answered (.error "Rate limit exceeded" StatusTooManyRequests)) := by
  have hsplit : List.replicate (10 + m) now
      = now :: (List.replicate 9 now ++ List.replicate m now) := by
    rw [show 10 + m = (9 + m) + 1 by omega, List.replicate_succ, List.replicate_add]
  have hfirst := rateLimit_absent redisClient r now hup habs
  obtain ⟨h1, h2, e2, h3, h4⟩ := serveAll_counting r now (List.replicate 9 now)
    (redisClient.put ("rate:" ++ r.RemoteAddr) ⟨Itoa 1, some (now + 60000000000)⟩)
    1 (now + 60000000000) hup (put_data_same _ _ _) (by omega)
    (fun u hu => by
      have := List.eq_of_mem_replicate hu
      omega) (by simp)
  simp only [List.length_replicate] at h1 h4
  have hfull := serveAll_full r _ e2 h2 h4 (List.replicate m now)
    (fun u hu => by
      have := List.eq_of_mem_replicate hu
      omega)
  have hcons : ∀ (rd : Redis) (t : Nat) (ts : List Nat),
      (serveAll rd r (t :: ts)).2
        = (RateLimitMiddleware rd r t).2 :: (serveAll (RateLimitMiddleware rd r t).1 r ts).2 :=
    fun _ _ _ => rfl
  rw [hsplit, hcons, hfirst, serveAll_append]
  simp only [h1, hfull, List.length_replicate]
  rfl

/-- A round in which each of `m` requests standing in phase `p` runs one
step, when that step leads to phase `p2` on every counter state satisfying
an invariant the step preserves. -/
theorem runSchedule_round (r : Request) (now : Nat) (inv : Redis → Prop) (p p2 : Phase)
    (hstep : ∀ rd, inv rd → (stepRequest rd r now p).2 = p2 ∧ inv (stepRequest rd r now p).1)
    (m : Nat) :
    ∀ (pre post : List Phase) (rd : Redis), inv rd →
      ∃ rd2, inv rd2 ∧
        runSchedule r now ⟨rd, pre ++ (List.replicate m p ++ post)⟩
            (List.range' pre.length m)
          = ⟨rd2, pre ++ (List.replicate m p2 ++ post)⟩ := by
  induction m with
  | zero =>
    intro pre post rd hinv
    exact ⟨rd, hinv, by simp [runSchedule]⟩
  | succ m ih =>
    intro pre post rd hinv
    obtain ⟨hp, hinv2⟩ := hstep rd hinv
    obtain ⟨rd2, hinv3, hrun⟩ := ih (pre ++ [p2]) post (stepRequest rd r now p).1 hinv2
    refine ⟨rd2, hinv3, ?_⟩
    simp only [List.length_append, List.length_singleton, List.append_assoc,
      List.singleton_append] at hrun
    simp only [List.range', runSchedule, List.foldl_cons, List.replicate_succ,
      List.cons_append, stepAt_middle, hp]
    exact hrun

/-- When every request reads the count before any of them increments it, on
a counter that reads below 10, all of them are admitted. -/
theorem readsFirst_admits_all (r : Request) (now n : Nat) (rd : Redis)
    (hcount : readCount rd ("rate:" ++ r.RemoteAddr) now < 10) :
    (runSchedule r now ⟨rd, List.replicate n Phase.idle⟩ (readsFirstSchedule n)).phases
      = List.replicate n (Phase.finished .next) := by
  have hnot : ∀ rd2 : Redis, readCount rd2 ("rate:" ++ r.RemoteAddr) now < 10 →
      ¬ (10 ≤ readCount rd2 ("rate:" ++ r.RemoteAddr) now) := fun _ h => by omega
  obtain ⟨rd1, _, h1⟩ := runSchedule_round r now
    (fun x => readCount x ("rate:" ++ r.RemoteAddr) now < 10) .idle .toIncr
    (fun x hx => by simp [stepRequest, hnot x hx, hx]) n [] [] rd hcount
  obtain ⟨rd2, _, h2⟩ := runSchedule_round r now (fun _ => True) .toIncr .toExpire
    (fun x _ => by simp [stepRequest]) n [] [] rd1 trivial
  obtain ⟨rd3, _, h3⟩ := runSchedule_round r now (fun _ => True) .toExpire
    (.finished .next) (fun x _ => by simp [stepRequest]) n [] [] rd2 trivial
  simp only [List.nil_append, List.append_nil, List.length_nil] at h1 h2 h3
  unfold readsFirstSchedule
  rw [runSchedule_append, runSchedule_append, List.range_eq_range', h1, h2, h3]

/-- C15, as stated, fails: the read of the count, the increment and the
expiry assignment are separate steps. Of 50 simultaneous requests of one
client on a fresh key, scheduled so that each reads the count before any of
them increments it, all 50 are admitted. -/
theorem rateLimit_race_admits_fifty :
    admitted (runSchedule exampleRequest 0 ⟨emptyRedis, List.replicate 50 Phase.idle⟩
      (readsFirstSchedule 50)) = 50 ∧
    (runSchedule exampleRequest 0 ⟨emptyRedis, List.replicate 50 Phase.idle⟩
      (readsFirstSchedule 50)).phases = List.replicate 50 (Phase.finished .next) := by
  have h := readsFirst_admits_all exampleRequest 0 50 emptyRedis (by decide)
  refine ⟨?_, h⟩
  unfold admitted
  rw [h]
  decide

/-- C15, amended: of N = 10 + m requests of one client address made at one
instant against a fresh rate-limit key on a reachable counter store, exactly
10 are admitted and the other m refused when the requests are served one
after the other, each running its read, increment and expiry assignment
without another request in between; these are separate steps, not one atomic
step, and under the interleaving in which every request reads the count
before any increments it all N are admitted. -/
theorem rateLimit_sequential_admits_ten (rd : Redis) (r : Request) (now m : Nat)
    (hup : rd.up = true)
    (habs : rd.lookup ("rate:" ++ r.RemoteAddr) now = none) :
    (runSchedule r now ⟨rd, List.replicate (10 + m) Phase.idle⟩
        (seqSchedule 0 (10 + m))).phases
      = List.replicate 10 (Phase.finished .next) ++ List.replicate m
          (Phase.finished (.answered (.error "Rate limit exceeded" StatusTooManyRequests))) ∧
    admitted (runSchedule r now ⟨rd, List.replicate (10 + m) Phase.idle⟩
      (seqSchedule 0 (10 + m))) = 10 ∧
    (runSchedule r now ⟨rd, List.replicate (10 + m) Phase.idle⟩
        (readsFirstSchedule (10 + m))).phases
      = List.replicate (10 + m) (Phase.finished .next) := by
  have hseq := runSchedule_seq r now (10 + m) [] rd
  simp only [List.nil_append, List.length_nil] at hseq
  have hv := serveAll_same_instant rd r now m hup habs
  have hph : (runSchedule r now ⟨rd, List.replicate (10 + m) Phase.idle⟩
        (seqSchedule 0 (10 + m))).phases
      = List.replicate 10 (Phase.finished .next) ++ List.replicate m
          (Phase.finished (.answered (.error "Rate limit exceeded" StatusTooManyRequests))) := by
    rw [hseq]
    simp only [hv, List.map_append, List.map_replicate]
  have hcount := readCount_absent rd ("rate:" ++ r.RemoteAddr) now habs
  refine ⟨hph, ?_, readsFirst_admits_all r now (10 + m) rd (by omega)⟩
  unfold admitted
  rw [hph]
  simp [List.filter_append, List.filter_replicate]

/-- C15 amended, on an instance: 50 simultaneous requests served one after
the other on an empty counter store. -/
theorem rateLimit_sequential_admits_ten_witness :
    admitted (runSchedule exampleRequest 0 ⟨emptyRedis, List.replicate (10 + 40) Phase.idle⟩
      (seqSchedule 0 (10 + 40))) = 10 :=
  (rateLimit_sequential_admits_ten emptyRedis exampleRequest 0 40 rfl rfl).2.1

/-! ## The rate limiter and the keys of the cache -/

theorem Incr_data_other (rd : Redis) (key k : String) (now : Nat) (h : k ≠ key) :
    (rd.Incr key now).1.data k = rd.data k := by
  unfold Redis.Incr
  split
  · split
    · exact put_data_other rd key k _ h
    · split
      · rfl
      · split
        · rfl
        · exact put_data_other rd key k _ h
  · rfl

theorem Expire_data_other (rd : Redis) (key k : String) (dur : Duration) (now : Nat)
    (h : k ≠ key) :
    (rd.Expire key dur now).1.data k = rd.data k := by
  unfold Redis.Expire
  split
  · split
    · rfl
    · simp only
      split
      · simp [Redis.del, h]
      · exact put_data_other rd key k _ h
  · rfl

theorem url_key_ne_rate_key (id ip : String) : "url:" ++ id ≠ "rate:" ++ ip := by
  intro h
  have hd := congrArg String.data h
  simp at hd

/-- The middleware in front of every route leaves every key of the
resolution cache as it was. -/
theorem rateLimit_keeps_cache_keys (rd : Redis) (r : Request) (now : Nat) (id : String) :
    (RateLimitMiddleware rd r now).1.data ("url:" ++ id) = rd.data ("url:" ++ id) := by
  have hne := url_key_ne_rate_key id r.RemoteAddr
  unfold RateLimitMiddleware
  simp only
  split
  · rfl
  · rw [Expire_data_other _ _ _ _ _ hne, Incr_data_other _ _ _ _ hne]

/-! ## Claims about the Location header -/

theorem hexEscapeChars_ascii (cs : List Char) (h : ∀ c ∈ cs, c.toNat < 128) :
    hexEscapeChars cs = cs := by
  induction cs with
  | nil => rfl
  | cons c cs ih =>
    have hc : c.toNat < 128 := h c (by simp)
    simp [hexEscapeChars, hc, ih (fun d hd => h d (by simp [hd]))]

/-- A target in which `url.Parse` fails or finds a scheme or a host, made of
ASCII characters, is written to the Location header as it is. -/
theorem redirectLocation_absolute (urlParse : String → Option (String × String))
    (oldpath url : String)
    (habs : urlParse url = none ∨
      ∃ scheme host, urlParse url = some (scheme, host) ∧ ¬ (scheme = "" ∧ host = ""))
    (hascii : ∀ c ∈ url.data, c.toNat < 128) :
    redirectLocation urlParse oldpath url = url := by
  have hesc : hexEscapeNonASCII url = url := by
    unfold hexEscapeNonASCII
    rw [hexEscapeChars_ascii url.data hascii]
  rcases habs with hnone | ⟨scheme, host, hsome, hrel⟩
  · simp only [redirectLocation, hnone]
    exact hesc
  · simp only [redirectLocation, hsome, hrel, if_false]
    exact hesc

/-- C5, as stated, fails: the Location header is not the stored destination
when that destination has no scheme and no host. With "abc123XY" mapped to
"example.com/page" the handler hands that target to http.Redirect, cold or
warm, and the header written for the request path "/abc123XY" is
"/example.com/page"; with an empty destination the header is "/". -/
theorem redirect_location_not_destination :
    (RedirectURL (storeWith "example.com/page") emptyRedis exampleRequest 0).response
      = .redirect "example.com/page" StatusMovedPermanently ∧
    locationHeader exampleUrlParse "/abc123XY"
        (RedirectURL (storeWith "example.com/page") emptyRedis exampleRequest 0).response
      = some "/example.com/page" ∧
    locationHeader exampleUrlParse "/abc123XY"
        (RedirectURL (storeWith "example.com/page")
          (RedirectURL (storeWith "example.com/page") emptyRedis exampleRequest 0).redis
          exampleRequest 500000).response
      = some "/example.com/page" ∧
    locationHeader exampleUrlParse "/abc123XY"
        (RedirectURL (storeWith "") emptyRedis exampleRequest 0).response
      = some "/" ∧
    (some "/example.com/page" : Option String) ≠ some "example.com/page" ∧
    (some "/" : Option String) ≠ some "" := by
  decide

/-- C5, amended: for every identifier the store maps to a row with
destination d and a reachable cache, the handler answers 301 through
http.Redirect with target d when the cache is cold for the identifier, when
it holds an entry with value d, and at any instant after an earlier
resolution against the same store that started from a cold cache: the
answer is the same whether or not the cache is warm. When d is absolute
(url.Parse finds a scheme or a host in it, or rejects it) and made of ASCII
characters, the Location header of each of these answers is d itself. -/
theorem redirect_same_cold_or_warm (urlParse : String → Option (String × String))
    (oldpath : String) (db : Queries) (redisClient : Redis) (r : Request)
    (now : Nat) (url : Url)
    (hup : redisClient.up = true) (hstore : db.GetURL r.shortID = .ok url) :
    (redisClient.lookup ("url:" ++ r.shortID) now = none →
      (RedirectURL db redisClient r now).response
        = .redirect url.LongUrl StatusMovedPermanently) ∧
    (∀ e : Entry, redisClient.lookup ("url:" ++ r.shortID) now = some e →
      e.val = url.LongUrl →
      (RedirectURL db redisClient r now).response
        = .redirect url.LongUrl StatusMovedPermanently) ∧
    (∀ later : Nat, redisClient.lookup ("url:" ++ r.shortID) now = none →
      (RedirectURL db (RedirectURL db redisClient r now).redis r later).response
        = .redirect url.LongUrl StatusMovedPermanently) ∧
    ((urlParse url.LongUrl = none ∨
        ∃ scheme host, urlParse url.LongUrl = some (scheme, host) ∧
          ¬ (scheme = "" ∧ host = "")) →
      (∀ c ∈ url.LongUrl.data, c.toNat < 128) →
      (redisClient.lookup ("url:" ++ r.shortID) now = none →
        locationHeader urlParse oldpath (RedirectURL db redisClient r now).response
          = some url.LongUrl) ∧
      (∀ e : Entry, redisClient.lookup ("url:" ++ r.shortID) now = some e →
        e.val = url.LongUrl →
        locationHeader urlParse oldpath (RedirectURL db redisClient r now).response
          = some url.LongUrl) ∧
      (∀ later : Nat, redisClient.lookup ("url:" ++ r.shortID) now = none →
        locationHeader urlParse oldpath
            (RedirectURL db (RedirectURL db redisClient r now).redis r later).response
          = some url.LongUrl)) := by
  have ht := redirect_target_cold_or_warm db redisClient r now url hup hstore
  refine ⟨ht.1, ht.2.1, ht.2.2, ?_⟩
  intro habs hascii
  have hloc : locationHeader urlParse oldpath
      (.redirect url.LongUrl StatusMovedPermanently) = some url.LongUrl := by
    simp only [locationHeader]
    rw [redirectLocation_absolute urlParse oldpath url.LongUrl habs hascii]
  refine ⟨fun hcold => ?_, fun e hl hv => ?_, fun later hcold => ?_⟩
  · rw [ht.1 hcold]
    exact hloc
  · rw [ht.2.1 e hl hv]
    exact hloc
  · rw [ht.2.2 later hcold]
    exact hloc

/-- C5 amended, on an instance: "abc123XY" mapped to
"https://example.com/page", resolved on a cold cache and again half a
millisecond and one hour later: 301 each time, with that destination as the
Location header. -/
theorem redirect_same_cold_or_warm_witness :
    (RedirectURL exampleStore emptyRedis exampleRequest 0).response
      = .redirect "https://example.com/page" StatusMovedPermanently ∧
    locationHeader exampleUrlParse "/abc123XY"
        (RedirectURL exampleStore emptyRedis exampleRequest 0).response
      = some "https://example.com/page" ∧
    locationHeader exampleUrlParse "/abc123XY"
        (RedirectURL exampleStore (RedirectURL exampleStore emptyRedis exampleRequest 0).redis
          exampleRequest 500000).response
      = some "https://example.com/page" ∧
    locationHeader exampleUrlParse "/abc123XY"
        (RedirectURL exampleStore (RedirectURL exampleStore emptyRedis exampleRequest 0).redis
          exampleRequest 3600000000000).response
      = some "https://example.com/page" :=
  ⟨(redirect_same_cold_or_warm exampleUrlParse "/abc123XY" exampleStore emptyRedis
      exampleRequest 0 ⟨"abc123XY", "https://example.com/page", none⟩ rfl rfl).1 rfl,
    ((redirect_same_cold_or_warm exampleUrlParse "/abc123XY" exampleStore emptyRedis
      exampleRequest 0 ⟨"abc123XY", "https://example.com/page", none⟩ rfl rfl).2.2.2
      (Or.inr ⟨"https", "example.com", rfl, by decide⟩) (by decide)).1 rfl,
    ((redirect_same_cold_or_warm exampleUrlParse "/abc123XY" exampleStore emptyRedis
      exampleRequest 0 ⟨"abc123XY", "https://example.com/page", none⟩ rfl rfl).2.2.2
      (Or.inr ⟨"https", "example.com", rfl, by decide⟩) (by decide)).2.2 500000 rfl,
    ((redirect_same_cold_or_warm exampleUrlParse "/abc123XY" exampleStore emptyRedis
      exampleRequest 0 ⟨"abc123XY", "https://example.com/page", none⟩ rfl rfl).2.2.2
      (Or.inr ⟨"https", "example.com", rfl, by decide⟩) (by decide)).2.2 3600000000000 rfl⟩

/-! ## The order of the analytics body -/

/-- The counts are written in increasing order of location, whatever the
order of the clicks: clicks from Tema, Accra, Tema give Accra 1, Tema 2. -/
theorem countLocations_sorted_instance :
    countLocations (fun ip => if ip = "10.0.0.2" then "Accra, Ghana" else "Tema, Ghana")
        [⟨"10.0.0.1"⟩, ⟨"10.0.0.2"⟩, ⟨"10.0.0.3"⟩]
      = [("Accra, Ghana", 1), ("Tema, Ghana", 2)] := by
  decide

end UrlShortener
